import Mathlib

/-
  Verification development for the ClawView telemetry fact pipeline
  (runtime/clawview-probe/probe.mjs, runtime/clawview-probe/sync-outbound.mjs,
  and the hook trigger controller).

  The JavaScript sources are shallowly embedded:
  * strings are lists of characters (`Str`),
  * JSON values are `JVal` (fractional numbers are not modelled; every number
    that the pipeline manipulates is an integer count or a millisecond
    timestamp, modelled as `Int`; the JavaScript `NaN` outcome of a numeric
    coercion is modelled as `Option.none`),
  * records read from the JSONL stores are association lists of
    (field name, value) pairs, mirroring dynamic JavaScript objects,
  * file writes are recorded as data: each rewrite step returns the new file
    content together with the write method used (temp-file-then-rename,
    in-place truncation, or no write),
  * thrown exceptions are modelled by an `Option SyncError` component that is
    `some _` exactly on the source's `throw` paths.
-/

namespace ClawView

/-- JavaScript strings, modelled as lists of characters. -/
abbrev Str := List Char

/-- JSON scalar values as they occur in the probe's JSONL stores.
Fractional numbers are not modelled (`jnum` carries an `Int`). -/
inductive JVal where
  | jnull : JVal
  | jbool : Bool → JVal
  | jnum : Int → JVal
  | jstr : Str → JVal
deriving DecidableEq, Repr

/-- A dynamic JavaScript object (a JSONL record): an association list of
field name / value pairs, in insertion order. -/
abbrev JObj := List (Str × JVal)

/-- `Object.prototype.hasOwnProperty`-style lookup: first binding wins. -/
def jLookup (r : JObj) (k : Str) : Option JVal :=
  (r.find? (fun p => p.1 = k)).map (·.2)

/-- JavaScript falsiness of a `JVal` (`undefined` is handled by the callers
via `Option`): `null`, `false`, `0` and `""` are falsy. -/
def jsFalsy : JVal → Bool
  | JVal.jnull => true
  | JVal.jbool b => !b
  | JVal.jnum n => n = 0
  | JVal.jstr s => s.isEmpty

/-- JavaScript `String(v)` on a `JVal`. -/
def jsToStr : JVal → Str
  | JVal.jnull => ("null".toList)
  | JVal.jbool true => ("true".toList)
  | JVal.jbool false => ("false".toList)
  | JVal.jnum n => (toString n).toList
  | JVal.jstr s => s

/-- JavaScript `String(x || "")` applied to an optional field: a missing or
falsy field yields the empty string. -/
def strOfField (o : Option JVal) : Str :=
  match o with
  | none => []
  | some v => if jsFalsy v then [] else jsToStr v

/-- JavaScript `Number(x || 0)` applied to an optional field, as used on
`ts_ms` slots. `none` models a `NaN` result (a non-numeric truthy value);
a missing or falsy field coerces to `0`. Numeric strings of decimal digits
convert to their value; other strings convert to `NaN`. -/
def jsNumOfField (o : Option JVal) : Option Int :=
  match o with
  | none => some 0
  | some v =>
    if jsFalsy v then some 0
    else match v with
      | JVal.jnum n => some n
      | JVal.jbool _ => some 1
      | JVal.jnull => some 0
      | JVal.jstr s =>
        if s ≠ [] ∧ ∀ c ∈ s, c.isDigit then
          some (Int.ofNat (s.foldl (fun a c => a * 10 + (c.toNat - 48)) 0))
        else none

/-- ASCII whitespace, the subset of the JavaScript `\s` class (and of the
characters `String.prototype.trim` removes) that the embedding models. -/
def isJsSpace (c : Char) : Bool :=
  decide (c.toNat = 32 ∨ c.toNat = 9 ∨ c.toNat = 10 ∨ c.toNat = 13 ∨
    c.toNat = 11 ∨ c.toNat = 12)

/-- `String.prototype.trim`: drop leading whitespace. -/
def trimLeft (s : Str) : Str := s.dropWhile isJsSpace

/-- `String.prototype.trim`: drop trailing whitespace. -/
def trimRight (s : Str) : Str := (s.reverse.dropWhile isJsSpace).reverse

/-- `String.prototype.trim` (ASCII whitespace model). -/
def jsTrim (s : Str) : Str := trimRight (trimLeft s)

/-- `String.prototype.toLowerCase`, per character (ASCII model: JavaScript
lower-cases the full Unicode range, but every string the pipeline lower-cases
is compared against ASCII keyword sets). -/
def jsCharToLower (c : Char) : Char :=
  if 65 ≤ c.toNat ∧ c.toNat ≤ 90 then Char.ofNat (c.toNat + 32) else c

/-- `String.prototype.toUpperCase`, per character (ASCII model). -/
def jsCharToUpper (c : Char) : Char :=
  if 97 ≤ c.toNat ∧ c.toNat ≤ 122 then Char.ofNat (c.toNat - 32) else c

/-- `String.prototype.toLowerCase` (ASCII model). -/
def jsToLower (s : Str) : Str := s.map jsCharToLower

/-- `String.prototype.toUpperCase` (ASCII model). -/
def jsToUpper (s : Str) : Str := s.map jsCharToUpper

/-! ### The sensitive-content patterns (`API_FACT_SENSITIVE_PATTERNS`)

probe.mjs lines 51-55 define three case-insensitive regular expressions:
an e-mail address shape, a bearer-token shape, and a credential key/value
shape.  The character classes are modelled on code points (as in JavaScript
regex semantics); `\b` is the word/non-word transition with positions outside
the string counting as non-word.  A regex `.test` succeeds iff some
decomposition of the subject realises the pattern, which is how the matchers
below are stated. -/

/-- JavaScript `\w`: ASCII letters, digits, underscore. -/
def isWordChar (c : Char) : Bool :=
  decide ((65 ≤ c.toNat ∧ c.toNat ≤ 90) ∨ (97 ≤ c.toNat ∧ c.toNat ≤ 122) ∨
    (48 ≤ c.toNat ∧ c.toNat ≤ 57) ∨ c.toNat = 95)

/-- ASCII letter (the `[a-z]` class under the `i` flag). -/
def isAsciiAlpha (c : Char) : Bool :=
  decide ((65 ≤ c.toNat ∧ c.toNat ≤ 90) ∨ (97 ≤ c.toNat ∧ c.toNat ≤ 122))

/-- ASCII digit. -/
def isAsciiDigit (c : Char) : Bool := decide (48 ≤ c.toNat ∧ c.toNat ≤ 57)

/-- The e-mail local-part class `[a-z0-9._%+-]` under the `i` flag. -/
def isEmailLocalChar (c : Char) : Bool :=
  isAsciiAlpha c || isAsciiDigit c ||
    decide (c.toNat = 46 ∨ c.toNat = 95 ∨ c.toNat = 37 ∨ c.toNat = 43 ∨ c.toNat = 45)

/-- The e-mail domain class `[a-z0-9.-]` under the `i` flag. -/
def isEmailDomainChar (c : Char) : Bool :=
  isAsciiAlpha c || isAsciiDigit c || decide (c.toNat = 46 ∨ c.toNat = 45)

/-- The token class `[a-z0-9._~+/=-]` under the `i` flag (bearer-token body
and credential-value body). -/
def isTokenChar (c : Char) : Bool :=
  isAsciiAlpha c || isAsciiDigit c ||
    decide (c.toNat = 46 ∨ c.toNat = 95 ∨ c.toNat = 126 ∨ c.toNat = 43 ∨
      c.toNat = 47 ∨ c.toNat = 61 ∨ c.toNat = 45)

/-- Wordness of an optional character; positions outside the string are
non-word, so `\b` holds at a position iff the wordness on its two sides
differs. -/
def wOpt (o : Option Char) : Bool :=
  match o with
  | none => false
  | some c => isWordChar c

/-- The character at index `i`, `none` past the end. -/
def charAt? (s : Str) (i : Nat) : Option Char := (s.drop i).head?

/-- The character before index `i`, `none` at the start. -/
def prevAt? (s : Str) (i : Nat) : Option Char :=
  if i = 0 then none else charAt? s (i - 1)

/-- The slice of `s` from index `a` (inclusive) to `b` (exclusive). -/
def slice (s : Str) (a b : Nat) : Str := (s.drop a).take (b - a)

/-- Index-level match of `/\b[a-z0-9._%+-]+@[a-z0-9.-]+\.[a-z]{2,}\b/i`:
the `@` sits at `j`, the local part starts at some `i < j`, the final `.`
sits at some `k`, and the top-level domain ends at some `m`. A `.test`
succeeds iff some choice of these positions realises the pattern. Bounded,
hence decidable. -/
def EmailIdx (s : Str) : Prop :=
  ∃ j ∈ List.range (s.length + 1),
    charAt? s j = some '@' ∧
    (∃ i ∈ List.range (s.length + 1),
      i < j ∧ (∀ c ∈ slice s i j, isEmailLocalChar c) ∧
      wOpt (prevAt? s i) ≠ wOpt (charAt? s i)) ∧
    (∃ k ∈ List.range (s.length + 1),
      j + 1 < k ∧ charAt? s k = some '.' ∧
      (∀ c ∈ slice s (j + 1) k, isEmailDomainChar c) ∧
      (∃ m ∈ List.range (s.length + 1),
        k + 3 ≤ m ∧ m ≤ s.length ∧
        (∀ c ∈ slice s (k + 1) m, isAsciiAlpha c) ∧
        wOpt (charAt? s (m - 1)) ≠ wOpt (charAt? s m)))

/-- Index-level match of `/\bbearer\s+[a-z0-9._~+/=-]{8,}/i`: the keyword
starts at `i`, is followed by `w ≥ 1` whitespace characters and then at
least eight token characters. -/
def BearerIdx (s : Str) : Prop :=
  ∃ i ∈ List.range (s.length + 1),
    (jsToLower (slice s i (i + 6)) = ("bearer".toList) ∧ i + 6 ≤ s.length ∧
      wOpt (prevAt? s i) ≠ wOpt (charAt? s i)) ∧
    (∃ w ∈ List.range (s.length + 1),
      1 ≤ w ∧ (∀ c ∈ slice s (i + 6) (i + 6 + w), isJsSpace c) ∧
      i + 6 + w + 8 ≤ s.length ∧
      (∀ c ∈ slice s (i + 6 + w) (i + 6 + w + 8), isTokenChar c))

/-- The credential keywords of the third sensitive pattern. -/
def credentialKeywords : List Str :=
  [("token".toList), ("access_token".toList), ("refresh_token".toList),
   ("id_token".toList), ("authorization".toList), ("cookie".toList),
   ("set-cookie".toList)]

/-- Index-level match of
`/\b(?:token|...|set-cookie)\b\s*[:=]\s*["']?[a-z0-9._~+/=-]{8,}/i`:
keyword at `i`, `a` whitespace characters, a `:` or `=`, `b` whitespace
characters, an optional quote (`q ∈ {0,1}`), then at least eight token
characters. -/
def TokenIdx (s : Str) : Prop :=
  ∃ kw ∈ credentialKeywords, ∃ i ∈ List.range (s.length + 1),
    (jsToLower (slice s i (i + kw.length)) = kw ∧ i + kw.length ≤ s.length ∧
      wOpt (prevAt? s i) ≠ wOpt (charAt? s i) ∧
      wOpt (charAt? s (i + kw.length - 1)) ≠ wOpt (charAt? s (i + kw.length))) ∧
    (∃ a ∈ List.range (s.length + 1),
      (∀ c ∈ slice s (i + kw.length) (i + kw.length + a), isJsSpace c) ∧
      (charAt? s (i + kw.length + a) = some ':' ∨
        charAt? s (i + kw.length + a) = some '=') ∧
      (∃ b ∈ List.range (s.length + 1),
        (∀ c ∈ slice s (i + kw.length + a + 1) (i + kw.length + a + 1 + b),
          isJsSpace c) ∧
        (∃ q ∈ [0, 1],
          (q = 1 → charAt? s (i + kw.length + a + 1 + b) = some '"' ∨
            charAt? s (i + kw.length + a + 1 + b) = some (Char.ofNat 39)) ∧
          i + kw.length + a + 1 + b + q + 8 ≤ s.length ∧
          (∀ c ∈ slice s (i + kw.length + a + 1 + b + q)
            (i + kw.length + a + 1 + b + q + 8), isTokenChar c))))

instance decEmailIdx (s : Str) : Decidable (EmailIdx s) := by
  unfold EmailIdx; infer_instance

instance decBearerIdx (s : Str) : Decidable (BearerIdx s) := by
  unfold BearerIdx; infer_instance

instance decTokenIdx (s : Str) : Decidable (TokenIdx s) := by
  unfold TokenIdx; infer_instance

/-- Stable insertion used by `stableSortBy`: `x` goes before the first
element that is not strictly below it. -/
def insertSorted (le : α → α → Bool) (x : α) : List α → List α
  | [] => [x]
  | y :: ys => if le y x && !le x y then y :: insertSorted le x ys else x :: y :: ys

/-- A stable sort (insertion sort). The modern JavaScript
`Array.prototype.sort` is required to be stable, and a stable sort's output
is determined by the key order alone, so this models the source's sort
calls faithfully. -/
def stableSortBy (le : α → α → Bool) : List α → List α
  | [] => []
  | x :: xs => insertSorted le x (stableSortBy le xs)

/-- `containsSensitiveApiFactValue` (probe.mjs lines 467-471): blank text is
never sensitive; otherwise some sensitive pattern matches. -/
def containsSensitiveApiFactValue (text : Str) : Bool :=
  if jsTrim text = [] then false
  else decide (EmailIdx text) || decide (BearerIdx text) || decide (TokenIdx text)

/-! ### probe.mjs: API fact normalization (lines 890-992) -/

/-- `API_EVENT_ALLOWED_FIELDS` (probe.mjs lines 36-49). -/
def API_EVENT_ALLOWED_FIELDS : List Str :=
  [("ts".toList), ("provider".toList), ("method".toList), ("host".toList),
   ("path_template".toList), ("endpoint_group".toList), ("status_code".toList),
   ("latency_ms".toList), ("is_429".toList), ("is_failure".toList),
   ("dedupe_key".toList), ("request_id".toList)]

/-- `pickAllowedFields` (sync-outbound.mjs lines 115-123; probe.mjs's
`sanitizeApiFactFields` is the same loop): keep exactly the allowed keys the
input owns, in whitelist order. -/
def pickAllowedFields (input : JObj) (allowedKeys : List Str) : JObj :=
  allowedKeys.filterMap (fun key => (jLookup input key).map (fun v => (key, v)))

/-- `sanitizeApiFactFields` (probe.mjs lines 890-898). -/
def sanitizeApiFactFields (raw : JObj) : JObj :=
  pickAllowedFields raw API_EVENT_ALLOWED_FIELDS

/-- JSON escaping of one character (quote, backslash and the common control
characters; other control characters do not occur in the modelled data). -/
def jsonEscapeChar (c : Char) : Str :=
  if c = '"' then ['\\', '"']
  else if c = '\\' then ['\\', '\\']
  else if c = '\n' then ['\\', 'n']
  else if c = '\t' then ['\\', 't']
  else if c = '\r' then ['\\', 'r']
  else [c]

/-- `JSON.stringify` of a string. -/
def jsonStr (s : Str) : Str := '"' :: (s.flatMap jsonEscapeChar) ++ ['"']

/-- `JSON.stringify` of a scalar. -/
def jsonOfJVal : JVal → Str
  | JVal.jnull => ("null".toList)
  | JVal.jbool true => ("true".toList)
  | JVal.jbool false => ("false".toList)
  | JVal.jnum n => (toString n).toList
  | JVal.jstr s => jsonStr s

/-- `JSON.stringify` of a record (insertion order, no spaces). -/
def jsonStringify (r : JObj) : Str :=
  Char.ofNat 123 ::
    (List.intercalate [','] (r.map (fun p => jsonStr p.1 ++ ':' :: jsonOfJVal p.2)))
    ++ [Char.ofNat 125]

/-- Decimal value of a digit string. -/
def digitsVal (s : Str) : Nat := s.foldl (fun a c => a * 10 + (c.toNat - 48)) 0

/-- `toMs` (probe.mjs lines 628-640): numbers above `1e12` are taken as
milliseconds, other numbers as seconds; digit strings likewise. `Date.parse`
of calendar date strings and fractional values are not modelled (the facts
carry integer millisecond timestamps); they yield `none` (`NaN`). -/
def toMs (o : Option JVal) : Option Int :=
  match o with
  | some (JVal.jnum n) => some (if n > 1000000000000 then n else n * 1000)
  | some (JVal.jstr s0) =>
    let s := jsTrim s0
    if s = [] then none
    else if s.all (fun c => isAsciiDigit c) then
      let n : Int := Int.ofNat (digitsVal s)
      some (if n > 1000000000000 then n else n * 1000)
    else none
  | _ => none

/-- The `^[a-z0-9._:-]{6,128}$/i` check on `request_id`. -/
def requestIdCharsetOk (s : Str) : Bool :=
  decide (6 ≤ s.length ∧ s.length ≤ 128) &&
    s.all (fun c => isAsciiAlpha c || isAsciiDigit c ||
      decide (c.toNat = 46 ∨ c.toNat = 95 ∨ c.toNat = 58 ∨ c.toNat = 45))

/-- The `other`/`others` → `unknown` mapping applied to provider and
endpoint-group names (the two ternaries at probe.mjs lines 929-931). -/
def legacyOtherToUnknown (s : Str) : Str :=
  if s = ("other".toList) ∨ s = ("others".toList) then ("unknown".toList) else s

/-- A normalized API fact event, the record built at probe.mjs lines 974-991.
`request_id = []` models the omitted field (the source spreads it only when
non-empty); the ISO `ts` string is derived from `ts_ms` and not separately
modelled. -/
structure NormApiEvent where
  ts_ms : Int
  provider : Str
  method : Str
  host : Str
  path_template : Str
  endpoint_group : Str
  status_code : Option Int
  latency_ms : Int
  is_429 : Bool
  is_failure : Bool
  dedupe_key : Str
  request_id : Str
deriving DecidableEq, Repr, Inhabited

/-- Result of `normalizeApiFactEvent`: the event (or `none`) and the reason
string. -/
structure NormResult where
  event : Option NormApiEvent
  reason : Str
deriving DecidableEq, Repr

/-- `normalizeApiFactEvent` (probe.mjs lines 900-992). The
`!raw || typeof raw !== "object"` guard is unrepresentable here because a
`JObj` is always an object. -/
def normalizeApiFactEvent (raw : JObj) : NormResult :=
  if containsSensitiveApiFactValue (jsonStringify raw) then
    ⟨none, ("sensitive".toList)⟩
  else if raw.any (fun p => !(API_EVENT_ALLOWED_FIELDS.contains p.1)) then
    ⟨none, ("invalid".toList)⟩
  else
    let sanitized := sanitizeApiFactFields raw
    if containsSensitiveApiFactValue (jsonStringify sanitized) then
      ⟨none, ("sensitive".toList)⟩
    else
      match toMs (jLookup sanitized ("ts".toList)) with
      | none => ⟨none, ("invalid".toList)⟩
      | some tsMs =>
        let providerRaw := jsToLower (jsTrim (strOfField (jLookup sanitized ("provider".toList))))
        let method := jsToUpper (jsTrim (strOfField (jLookup sanitized ("method".toList))))
        let host := jsToLower (jsTrim (strOfField (jLookup sanitized ("host".toList))))
        let pathTemplate := jsToLower (jsTrim (strOfField (jLookup sanitized ("path_template".toList))))
        let endpointGroupRaw := jsToLower (jsTrim (strOfField (jLookup sanitized ("endpoint_group".toList))))
        let dedupeKey := jsTrim (strOfField (jLookup sanitized ("dedupe_key".toList)))
        let provider := legacyOtherToUnknown providerRaw
        let endpointGroup := legacyOtherToUnknown endpointGroupRaw
        if provider = [] ∨ method = [] ∨ host = [] ∨ pathTemplate = [] ∨
            endpointGroup = [] ∨ dedupeKey = [] then
          ⟨none, ("invalid".toList)⟩
        else if containsSensitiveApiFactValue provider ||
            containsSensitiveApiFactValue method ||
            containsSensitiveApiFactValue host ||
            containsSensitiveApiFactValue pathTemplate ||
            containsSensitiveApiFactValue endpointGroup then
          ⟨none, ("sensitive".toList)⟩
        else
          let statusCode : Option Int :=
            match jLookup sanitized ("status_code".toList) with
            | some (JVal.jnum n) => if 100 ≤ n ∧ n ≤ 599 then some n else none
            | _ => none
          let latencyMs : Int :=
            match jLookup sanitized ("latency_ms".toList) with
            | some (JVal.jnum n) => max 0 n
            | _ => 0
          let is429 := decide (jLookup sanitized ("is_429".toList) = some (JVal.jbool true))
          let isFailure :=
            match jLookup sanitized ("is_failure".toList) with
            | some (JVal.jbool b) => b
            | _ => match statusCode with
              | none => true
              | some c => decide (400 ≤ c)
          let requestIdRaw := jsTrim (strOfField (jLookup sanitized ("request_id".toList)))
          let requestId :=
            if requestIdRaw ≠ [] ∧ requestIdCharsetOk requestIdRaw = true ∧
                containsSensitiveApiFactValue requestIdRaw = false then
              requestIdRaw
            else []
          ⟨some {
            ts_ms := tsMs
            provider := provider
            method := method
            host := host
            path_template := pathTemplate
            endpoint_group := endpointGroup
            status_code := statusCode
            latency_ms := latencyMs
            is_429 := is429
            is_failure := isFailure
            dedupe_key := dedupeKey
            request_id := requestId }, ("ok".toList)⟩

/-! ### probe.mjs: fact-store load, retention compaction and metrics -/

/-- How a state file was (re)written by a pipeline step. -/
inductive WriteMethod where
  | tempRename      -- write `<path>.tmp`, then `renameSync` over the target
  | truncateInPlace -- direct `writeFileSync(path, "")`
  | noWrite         -- the file was left untouched
deriving DecidableEq, Repr

/-- `apiEventRetentionMs` (probe.mjs line 31): 48 hours. -/
def apiEventRetentionMs : Int := 48 * 60 * 60 * 1000

/-- `skillEventRetentionMs` (probe.mjs line 34): 48 hours. -/
def skillEventRetentionMs : Int := 48 * 60 * 60 * 1000

/-- The record literal rebuilt from a normalized event when probe.mjs
rewrites `api-facts.jsonl` / `api-events.jsonl` (the ISO `ts` slot carries
the underlying milliseconds in this model). -/
def eventToObj (e : NormApiEvent) : JObj :=
  [(("ts".toList), JVal.jnum e.ts_ms),
   (("ts_ms".toList), JVal.jnum e.ts_ms),
   (("provider".toList), JVal.jstr e.provider),
   (("method".toList), JVal.jstr e.method),
   (("host".toList), JVal.jstr e.host),
   (("path_template".toList), JVal.jstr e.path_template),
   (("endpoint_group".toList), JVal.jstr e.endpoint_group),
   (("status_code".toList), match e.status_code with
     | some n => JVal.jnum n
     | none => JVal.jnull),
   (("latency_ms".toList), JVal.jnum e.latency_ms),
   (("is_429".toList), JVal.jbool e.is_429),
   (("is_failure".toList), JVal.jbool e.is_failure),
   (("dedupe_key".toList), JVal.jstr e.dedupe_key)] ++
  (if e.request_id = [] then [] else [(("request_id".toList), JVal.jstr e.request_id)])

/-- One `dedupedByKey.set` step (probe.mjs lines 1016-1019): a JavaScript
`Map` keeps the original insertion position when a key is overwritten, and
the event with the larger timestamp wins. -/
def upsertByKey : List (Str × NormApiEvent) → NormApiEvent → List (Str × NormApiEvent)
  | [], ev => [(ev.dedupe_key, ev)]
  | (k, old) :: rest, ev =>
    if k = ev.dedupe_key then (k, if ev.ts_ms > old.ts_ms then ev else old) :: rest
    else (k, old) :: upsertByKey rest ev

/-- Fold state for the raw-fact loop of `loadApiFactEvents`. -/
structure LoadFoldState where
  validFactCount : Nat
  sensitiveDropped : Nat
  invalidDropped : Nat
  dedupedByKey : List (Str × NormApiEvent)
deriving DecidableEq, Repr

/-- One iteration of the raw-fact loop (probe.mjs lines 1004-1020). -/
def loadApiStep (retainedFrom upperBound : Int) (st : LoadFoldState) (raw : JObj) :
    LoadFoldState :=
  let normalized := normalizeApiFactEvent raw
  match normalized.event with
  | none =>
    if normalized.reason = ("sensitive".toList) then
      { st with sensitiveDropped := st.sensitiveDropped + 1 }
    else
      { st with invalidDropped := st.invalidDropped + 1 }
  | some event =>
    let st := { st with validFactCount := st.validFactCount + 1 }
    if event.ts_ms < retainedFrom ∨ event.ts_ms > upperBound then st
    else { st with dedupedByKey := upsertByKey st.dedupedByKey event }

/-- Ascending sort by `ts_ms` (stable, as the modern JavaScript `sort`). -/
def sortEventsByTs (l : List NormApiEvent) : List NormApiEvent :=
  stableSortBy (fun a b => decide (a.ts_ms ≤ b.ts_ms)) l

/-- Result of `loadApiFactEvents`: the retained event set, source-connected
flag, drop statistics, and the two log rewrites it performs. -/
structure LoadApiResult where
  events : List NormApiEvent
  sourceConnected : Bool
  validFactCount : Nat
  sensitiveDropped : Nat
  invalidDropped : Nat
  factsWrite : List JObj × WriteMethod
  eventsWrite : List NormApiEvent × WriteMethod
deriving Repr

/-- `loadApiFactEvents` (probe.mjs lines 994-1048): normalize raw facts,
keep the ones inside the 48h retention window (with a 60s future allowance),
dedupe by key keeping the newest, sort by timestamp, and rewrite both the
`api-facts.jsonl` and `api-events.jsonl` logs — via temp-file-then-rename
when non-empty, via a direct in-place truncation when empty. -/
def loadApiFactEvents (rawFacts : List JObj) (nowMs : Int)
    (factsFileExists eventsFileExists : Bool) : LoadApiResult :=
  let retainedFrom := nowMs - apiEventRetentionMs
  let upperBound := nowMs + 60000
  let st := rawFacts.foldl (loadApiStep retainedFrom upperBound) ⟨0, 0, 0, []⟩
  let allEvents := sortEventsByTs (st.dedupedByKey.map (·.2))
  let retainedFacts := allEvents.map (fun e => sanitizeApiFactFields (eventToObj e))
  let factsWrite :=
    if retainedFacts.length > 0 then (retainedFacts, WriteMethod.tempRename)
    else if factsFileExists then ([], WriteMethod.truncateInPlace)
    else ([], WriteMethod.noWrite)
  let eventsWrite :=
    if allEvents.length > 0 then (allEvents, WriteMethod.tempRename)
    else if eventsFileExists then ([], WriteMethod.truncateInPlace)
    else ([], WriteMethod.noWrite)
  { events := allEvents
    sourceConnected := decide (rawFacts.length > 0)
    validFactCount := st.validFactCount
    sensitiveDropped := st.sensitiveDropped
    invalidDropped := st.invalidDropped
    factsWrite := factsWrite
    eventsWrite := eventsWrite }

/-- Per-`provider/endpoint_group` aggregate (probe.mjs lines 1071-1079); the
source stores the combined `provider/group` key in the `endpoint_group`
slot. -/
structure ApiGroupAgg where
  provider : Str
  endpoint_group : Str
  calls_24h : Nat
  calls_today_tokyo : Nat
  failures_24h : Nat
  rate_limits_24h : Nat
deriving DecidableEq, Repr

/-- Fold state of the metric loop of `computeApiMetricsFromFactEvents`. -/
structure ApiMetricFold where
  total24h : Nat
  totalToday : Nat
  success24h : Nat
  failed24h : Nat
  rateLimited24h : Nat
  unknown24h : Nat
  recentErrorTs : Option Int
  byGroup : List (Str × ApiGroupAgg)
deriving DecidableEq, Repr

/-- Insert-or-update of the `byGroup` map (insertion order preserved). -/
def setGroup (m : List (Str × ApiGroupAgg)) (k : Str) (g : ApiGroupAgg) :
    List (Str × ApiGroupAgg) :=
  match m with
  | [] => [(k, g)]
  | (k', g') :: rest => if k' = k then (k, g) :: rest else (k', g') :: setGroup rest k g

/-- One iteration of the metric loop (probe.mjs lines 1063-1109). -/
def apiMetricStep (last24hStart nowMs tokyoStartMs tokyoEndMs : Int)
    (st : ApiMetricFold) (ev : NormApiEvent) : ApiMetricFold :=
  let ts := ev.ts_ms
  let in24h := last24hStart ≤ ts ∧ ts ≤ nowMs
  let inToday := tokyoStartMs ≤ ts ∧ ts < tokyoEndMs
  if ¬in24h ∧ ¬inToday then st
  else
    let key := ev.provider ++ '/' :: ev.endpoint_group
    let g := match (st.byGroup.find? (fun p => p.1 = key)).map (·.2) with
      | some g => g
      | none =>
        { provider := ev.provider, endpoint_group := key, calls_24h := 0,
          calls_today_tokyo := 0, failures_24h := 0, rate_limits_24h := 0 }
    let (st, g) :=
      if in24h then
        let st := { st with total24h := st.total24h + 1 }
        let g := { g with calls_24h := g.calls_24h + 1 }
        let st :=
          if ev.provider = ("unknown".toList) ∨ ev.endpoint_group = ("unknown".toList) then
            { st with unknown24h := st.unknown24h + 1 }
          else st
        let newRecent :=
          match st.recentErrorTs with
          | none => some ts
          | some r => if ts > r then some ts else some r
        let (st, g) :=
          if ev.is_failure then
            ({ st with failed24h := st.failed24h + 1, recentErrorTs := newRecent },
             { g with failures_24h := g.failures_24h + 1 })
          else ({ st with success24h := st.success24h + 1 }, g)
        if ev.is_429 then
          ({ st with rateLimited24h := st.rateLimited24h + 1 },
           { g with rate_limits_24h := g.rate_limits_24h + 1 })
        else (st, g)
      else (st, g)
    let (st, g) :=
      if inToday then
        ({ st with totalToday := st.totalToday + 1 },
         { g with calls_today_tokyo := g.calls_today_tokyo + 1 })
      else (st, g)
    { st with byGroup := setGroup st.byGroup key g }

/-- The record returned by `computeApiMetricsFromFactEvents`
(probe.mjs lines 1115-1134). Ratios are modelled in `ℚ`; `none` models
`null`. -/
structure ApiMetrics where
  api_metrics_available : Bool
  api_call_total_24h : Option Nat
  api_call_total_today_tokyo : Option Nat
  api_success_total_24h : Option Nat
  api_failure_total_24h : Option Nat
  api_rate_limit_total_24h : Option Nat
  api_error_rate_24h : Option ℚ
  api_429_ratio_24h : Option ℚ
  api_unknown_rate_24h : Option ℚ
  endpoint_group_top5_calls_24h : Option (List ApiGroupAgg)
  api_recent_error_time : Option Int
  api_collection_mode : Str
  api_events_new_since_last : Option Nat
  api_events_retained : Nat
  api_cursor_ts_ms : Option Int
  api_events_valid_fact_total : Nat
  api_events_sensitive_dropped : Nat
  api_events_invalid_dropped : Nat
deriving DecidableEq, Repr

/-- `computeApiMetricsFromFactEvents` (probe.mjs lines 1050-1135). The
Tokyo calendar-day range is computed by the source with the host timezone
database (`tokyoDayRangeMs`); it enters here as the two bounds
`tokyoStartMs`/`tokyoEndMs`. -/
def computeApiMetricsFromFactEvents (events : List NormApiEvent) (nowMs : Int)
    (sourceConnected : Bool) (statsValid statsSensitive statsInvalid : Nat)
    (tokyoStartMs tokyoEndMs : Int) : ApiMetrics :=
  let last24hStart := nowMs - 24 * 60 * 60 * 1000
  let st := events.foldl (apiMetricStep last24hStart nowMs tokyoStartMs tokyoEndMs)
    ⟨0, 0, 0, 0, 0, 0, none, []⟩
  let groupTop5 :=
    (stableSortBy (fun a b => decide (b.calls_24h ≤ a.calls_24h))
      (st.byGroup.map (·.2))).take 5
  let hasEventStore := sourceConnected
  let latestTs := (events.getLast?).map (·.ts_ms)
  { api_metrics_available := hasEventStore
    api_call_total_24h := if hasEventStore then some st.total24h else none
    api_call_total_today_tokyo := if hasEventStore then some st.totalToday else none
    api_success_total_24h := if hasEventStore then some st.success24h else none
    api_failure_total_24h := if hasEventStore then some st.failed24h else none
    api_rate_limit_total_24h := if hasEventStore then some st.rateLimited24h else none
    api_error_rate_24h :=
      if hasEventStore ∧ st.total24h > 0 then some ((st.failed24h : ℚ) / st.total24h)
      else if hasEventStore then some 0 else none
    api_429_ratio_24h :=
      if hasEventStore ∧ st.total24h > 0 then some ((st.rateLimited24h : ℚ) / st.total24h)
      else if hasEventStore then some 0 else none
    api_unknown_rate_24h :=
      if hasEventStore ∧ st.total24h > 0 then some ((st.unknown24h : ℚ) / st.total24h)
      else if hasEventStore then some 0 else none
    endpoint_group_top5_calls_24h := if hasEventStore then some groupTop5 else none
    api_recent_error_time := st.recentErrorTs
    api_collection_mode :=
      if hasEventStore then ("fact-event-structured".toList)
      else ("fact-only-not-connected".toList)
    api_events_new_since_last := none
    api_events_retained := events.length
    api_cursor_ts_ms := latestTs
    api_events_valid_fact_total := statsValid
    api_events_sensitive_dropped := statsSensitive
    api_events_invalid_dropped := statsInvalid }

/-- `collectApiMetrics` (probe.mjs lines 1137-1144): wire the fact-store
load into the aggregator. -/
def collectApiMetrics (rawFacts : List JObj) (nowMs : Int)
    (factsFileExists eventsFileExists : Bool) (tokyoStartMs tokyoEndMs : Int) :
    ApiMetrics :=
  let r := loadApiFactEvents rawFacts nowMs factsFileExists eventsFileExists
  computeApiMetricsFromFactEvents r.events nowMs r.sourceConnected
    r.validFactCount r.sensitiveDropped r.invalidDropped tokyoStartMs tokyoEndMs

/-- `computeServiceStatusNow` (probe.mjs lines 1190-1203).
`gatewayRpcOk` is the `=== true` coercion of the probe's reachability flag;
the two counters are the `Number(x || 0)` coercions, with `none` modelling a
`NaN` result (which fails the `Number.isFinite` guard). -/
def computeServiceStatusNow (gatewayRpcOk : Bool)
    (restartUnexpectedCount24h criticalSystemErrorActiveCount : Option Int) : Str :=
  if !gatewayRpcOk then ("down".toList)
  else if (match restartUnexpectedCount24h with
      | some n => decide (0 < n)
      | none => false) ||
    (match criticalSystemErrorActiveCount with
      | some n => decide (0 < n)
      | none => false) then ("degraded".toList)
  else ("running".toList)

/-! ### probe.mjs: skill-event cursor and retention (lines 816-860) -/

/-- A skill invocation fact as stored in `skill-events.jsonl` (the fields
the cursor and retention logic reads; `ts_ms = none` models a non-numeric
timestamp whose `Number` coercion is `NaN`). -/
structure SkillEvent where
  ts_ms : Option Int
  dedupe_key : Str
  skill_name : Str
deriving DecidableEq, Repr

/-- The skill extraction cursor `skill-cursor.json`
(`{last_ts_ms, last_keys}`). -/
structure SkillCursor where
  last_ts_ms : Int
  last_keys : List Str
deriving DecidableEq, Repr

/-- JavaScript `Set.prototype.add`: append if not yet present. -/
def addKey (keys : List Str) (k : Str) : List Str :=
  if k ∈ keys then keys else keys ++ [k]

/-- `Array.prototype.slice(-n)`: the last `n` elements. -/
def takeLast (n : Nat) (l : List Str) : List Str := l.drop (l.length - n)

/-- Stable ascending sort by `Number(ts_ms || 0)`; the relative order of
`NaN` entries under the JavaScript comparator is unspecified and modelled
as the key `0`. -/
def sortSkillFacts (l : List SkillEvent) : List SkillEvent :=
  stableSortBy (fun a b => decide (a.ts_ms.getD 0 ≤ b.ts_ms.getD 0)) l

/-- The incremental-selection loop of `collectSkillUsageMetrics`
(probe.mjs lines 825-838), carrying the running `maxTs`/`maxTsKeys`. -/
def skillGo (lastTs : Int) (lastKeys : List Str) :
    List SkillEvent → Int → List Str → (List SkillEvent × Int × List Str)
  | [], maxTs, maxKeys => ([], maxTs, maxKeys)
  | ev :: rest, maxTs, maxKeys =>
    match ev.ts_ms with
    | none => skillGo lastTs lastKeys rest maxTs maxKeys
    | some tsMs =>
      if tsMs < lastTs then skillGo lastTs lastKeys rest maxTs maxKeys
      else if tsMs = lastTs ∧ ev.dedupe_key ∈ lastKeys then
        skillGo lastTs lastKeys rest maxTs maxKeys
      else
        let next :=
          if tsMs > maxTs then (tsMs, [ev.dedupe_key])
          else if tsMs = maxTs then (maxTs, addKey maxKeys ev.dedupe_key)
          else (maxTs, maxKeys)
        let r := skillGo lastTs lastKeys rest next.1 next.2
        (ev :: r.1, r.2)

/-- The cursor step of `collectSkillUsageMetrics` (probe.mjs lines 816-849):
select the facts not yet covered by the cursor and compute the advanced
cursor (written only when `maxTs >= lastTs`, keeping the newest 300 keys). -/
def collectSkillIncremental (cursor : SkillCursor) (factEvents : List SkillEvent) :
    List SkillEvent × SkillCursor :=
  let lastTs := cursor.last_ts_ms
  let lastKeys := cursor.last_keys
  let sortedFacts := sortSkillFacts factEvents
  let r := skillGo lastTs lastKeys sortedFacts lastTs lastKeys
  (r.1,
    if r.2.1 ≥ lastTs then
      { last_ts_ms := r.2.1, last_keys := takeLast 300 r.2.2 }
    else cursor)

/-- The retention rewrite of `skill-events.jsonl`
(probe.mjs lines 851-860): keep only events with
`Number(ts_ms) >= now - 48h`; rewrite via temp-file-then-rename when the
retained set is non-empty, truncate the file in place when it is empty. -/
def skillRetentionRewrite (log : List SkillEvent) (nowMs : Int) (fileExists : Bool) :
    List SkillEvent × WriteMethod :=
  let retainedFrom := nowMs - skillEventRetentionMs
  let allEvents := log.filter (fun e =>
    match e.ts_ms with
    | some t => decide (t ≥ retainedFrom)
    | none => false)
  if allEvents.length > 0 then (allEvents, WriteMethod.tempRename)
  else if fileExists then ([], WriteMethod.truncateInPlace)
  else ([], WriteMethod.noWrite)

/-- The skill-events log content after one pipeline run: newly accepted
facts are appended (`appendJsonl`), then the retention rewrite runs over the
re-read log. -/
def skillEventsAfterRun (oldLog incremental : List SkillEvent) (nowMs : Int)
    (fileExists : Bool) : List SkillEvent × WriteMethod :=
  skillRetentionRewrite (oldLog ++ incremental) nowMs fileExists

/-! ### probe.mjs: PID lock and entry dispatch (lines 1409-1509), and the
trigger controller (the hook handler, which spawns `probe.mjs --once`). -/

/-- Abstract actions of a probe invocation, in order. -/
inductive ProbeAction where
  | checkLock
  | acquireLock
  | runPipeline
  | releaseLock
deriving DecidableEq, Repr

/-- `lockAlive` (probe.mjs lines 1409-1419): read the PID from the lock
file, and probe it with `process.kill(pid, 0)` (modelled by `pidAlive`;
the call throws — yielding `false` — iff the process is gone). -/
def lockAlive (lockFile : Option Str) (pidAlive : Int → Bool) : Bool :=
  match lockFile with
  | none => false
  | some content =>
    match jsNumOfField (some (JVal.jstr (jsTrim content))) with
    | none => false
    | some pid => if pid ≤ 0 then false else pidAlive pid

/-- `hasFlag` (probe.mjs lines 17-19). -/
def hasFlag (argv : List Str) (flag : Str) : Bool := argv.contains flag

/-- The action trace of `runLoop` (probe.mjs lines 1433-1462): return
early when a live lock exists, otherwise write the lock, run the snapshot
loop (collapsed to one `runPipeline`), and clear the lock. -/
def runLoopTrace (lockIsAlive : Bool) : List ProbeAction :=
  if lockIsAlive then [ProbeAction.checkLock]
  else [ProbeAction.checkLock, ProbeAction.acquireLock, ProbeAction.runPipeline,
        ProbeAction.releaseLock]

/-- The action trace of `main` (probe.mjs lines 1481-1503): `--help`
prints usage; `--once` collects one snapshot with no lock interaction;
`--summarize` only reads; otherwise `runLoop` runs. -/
def mainTrace (argv : List Str) (lockIsAlive : Bool) : List ProbeAction :=
  if hasFlag argv ("--help".toList) || hasFlag argv ("-h".toList) then []
  else if hasFlag argv ("--once".toList) then [ProbeAction.runPipeline]
  else if hasFlag argv ("--summarize".toList) then []
  else runLoopTrace lockIsAlive

/-- The argv of the pipeline process spawned by the trigger controller:
the hook handler builds `node probe.mjs --once --out-dir <dir>`. -/
def hookPipelineArgv (outDir : Str) : List Str :=
  [("--once".toList), ("--out-dir".toList), outDir]

/-! ### sync-outbound.mjs: outbound sync transmitter -/

/-- `ALLOWED_API_EVENT_FIELDS` (sync-outbound.mjs lines 32-40). -/
def ALLOWED_API_EVENT_FIELDS : List Str :=
  [("ts".toList), ("provider".toList), ("endpoint_group".toList),
   ("status_code".toList), ("is_failure".toList), ("is_rate_limited".toList),
   ("dedupe_key".toList)]

/-- `ALLOWED_SNAPSHOT_FIELDS` (sync-outbound.mjs lines 42-74). -/
def ALLOWED_SNAPSHOT_FIELDS : List Str :=
  [("ts".toList), ("timezone".toList), ("gateway_status".toList),
   ("service_status_now".toList), ("service_uptime_ratio_24h".toList),
   ("cron_runs_24h_total".toList), ("cron_runs_today_tokyo_total".toList),
   ("cron_storm_top5_5m".toList), ("api_call_total_24h".toList),
   ("api_call_total_today_tokyo".toList), ("api_error_rate_24h".toList),
   ("api_429_ratio_24h".toList), ("endpoint_group_top5_calls_24h".toList),
   ("errors_active_count".toList), ("restart_unexpected_count_24h".toList),
   ("data_freshness_delay_min".toList), ("p0_core_coverage_ratio".toList),
   ("probe_version".toList), ("api_collection_mode".toList),
   ("api_events_new_since_last".toList), ("api_events_retained".toList),
   ("skills_total".toList), ("healthy_skills".toList),
   ("skills_components".toList), ("skills_top_24h".toList),
   ("skill_calls_total_24h".toList), ("skill_calls_collection_mode".toList),
   ("skill_calls_files_scanned".toList), ("skill_calls_retained_24h".toList),
   ("cron_jobs_total".toList), ("cron_jobs_enabled".toList)]

/-- `sanitizeApiEvent` (sync-outbound.mjs lines 125-127). -/
def sanitizeApiEvent (ev : JObj) : JObj :=
  pickAllowedFields ev ALLOWED_API_EVENT_FIELDS

/-- `sanitizeSnapshot` (sync-outbound.mjs lines 129-131). -/
def sanitizeSnapshot (snap : JObj) : JObj :=
  pickAllowedFields snap ALLOWED_SNAPSHOT_FIELDS

/-- The persisted sync cursor `sync-cursor.json` (defaults
`{api_last_ts_ms: 0, api_last_keys: [], snapshot_last_ts: ""}`). -/
structure SyncCursor where
  api_last_ts_ms : Int
  api_last_keys : List Str
  snapshot_last_ts : Str
deriving DecidableEq, Repr

/-- `Number(ev?.ts_ms || 0)` on an event record. -/
def tsOfEvent (ev : JObj) : Option Int := jsNumOfField (jLookup ev ("ts_ms".toList))

/-- `String(ev?.dedupe_key || "")` on an event record. -/
def keyOfEvent (ev : JObj) : Str := strOfField (jLookup ev ("dedupe_key".toList))

/-- `[...allEvents].sort((a, b) => Number(a?.ts_ms||0) - Number(b?.ts_ms||0))`:
stable ascending sort by timestamp (`NaN` keys modelled as `0`). -/
def sortApiEvents (l : List JObj) : List JObj :=
  stableSortBy (fun a b => decide ((tsOfEvent a).getD 0 ≤ (tsOfEvent b).getD 0)) l

/-- The `nextCursor` computed by `selectUnsentApiEvents` (it carries only
the two api fields; the merge into the full cursor happens in `runOnce`). -/
structure ApiCursorAdvance where
  api_last_ts_ms : Int
  api_last_keys : List Str
deriving DecidableEq, Repr

/-- The selection loop of `selectUnsentApiEvents`
(sync-outbound.mjs lines 143-161): skip events with a non-finite timestamp
or empty key, skip events covered by the cursor, accumulate the running
`maxTs`/`maxTsKeys`, and stop once the batch is full (the length test runs
after each push). -/
def syncGo (batchSize : Nat) (lastTs : Int) (lastKeys : List Str) :
    List JObj → Nat → Int → List Str → (List JObj × Int × List Str)
  | [], _, maxTs, maxKeys => ([], maxTs, maxKeys)
  | ev :: rest, cnt, maxTs, maxKeys =>
    match tsOfEvent ev with
    | none => syncGo batchSize lastTs lastKeys rest cnt maxTs maxKeys
    | some ts =>
      if keyOfEvent ev = [] then syncGo batchSize lastTs lastKeys rest cnt maxTs maxKeys
      else if ts < lastTs then syncGo batchSize lastTs lastKeys rest cnt maxTs maxKeys
      else if ts = lastTs ∧ keyOfEvent ev ∈ lastKeys then
        syncGo batchSize lastTs lastKeys rest cnt maxTs maxKeys
      else
        let next :=
          if ts > maxTs then (ts, [keyOfEvent ev])
          else if ts = maxTs then (maxTs, addKey maxKeys (keyOfEvent ev))
          else (maxTs, maxKeys)
        if cnt + 1 ≥ batchSize then ([ev], next.1, next.2)
        else
          let r := syncGo batchSize lastTs lastKeys rest (cnt + 1) next.1 next.2
          (ev :: r.1, r.2)

/-- `selectUnsentApiEvents` (sync-outbound.mjs lines 133-170). -/
def selectUnsentApiEvents (allEvents : List JObj) (cursor : SyncCursor)
    (batchSize : Nat) : List JObj × ApiCursorAdvance :=
  let lastTs := cursor.api_last_ts_ms
  let lastKeys := cursor.api_last_keys
  let sorted := sortApiEvents allEvents
  let r := syncGo batchSize lastTs lastKeys sorted 0 lastTs lastKeys
  (r.1, { api_last_ts_ms := r.2.1, api_last_keys := takeLast 300 r.2.2 })

/-- Outcome of one `fetch` of `postPayload`: the response is 2xx, the
response is non-2xx (`postPayload` throws), or the fetch itself rejects
(network failure; the `await` throws). -/
inductive PostOutcome where
  | httpOk
  | httpErr
  | netErr
deriving DecidableEq, Repr

/-- `postPayload` (sync-outbound.mjs lines 172-211): with no sync URL it
returns `{ok: false, skipped: true}` without attempting the request; with a
URL it throws on a non-2xx response or network failure, else returns
`{ok: true}`. `Except.error` models the throw. -/
def postPayloadResult (urlSet : Bool) (outcome : PostOutcome) : Except Unit Bool :=
  if !urlSet then Except.ok false
  else match outcome with
    | PostOutcome.httpOk => Except.ok true
    | PostOutcome.httpErr => Except.error ()
    | PostOutcome.netErr => Except.error ()

/-- The environment of one `runOnce` invocation: the state files read at
entry, the configuration, and the network outcomes of the (at most) two
POSTs it can attempt. The source guarantees `batchSize ≥ 1`
(`Math.max(1, ...)`). -/
structure SyncEnv where
  urlSet : Bool
  batchSize : Nat
  cursorFile : SyncCursor
  apiEvents : List JObj
  snapshots : List JObj
  apiPost : PostOutcome
  snapshotPost : PostOutcome

/-- Result of one `runOnce`: whether it exited by exception, the content of
`sync-cursor.json` on exit (the only write `runOnce` performs, and it
happens only on the non-throwing path, after both POST sections), and the
reported counters. -/
structure RunOnceResult where
  threw : Bool
  cursorFile : SyncCursor
  apiEventsSent : Nat
  snapshotSent : Bool
deriving DecidableEq, Repr

/-- The tail of `runOnce` (sync-outbound.mjs lines 254-258): merge the
advanced api cursor (only if the api batch was delivered) into the cursor
(whose `snapshot_last_ts` may have been updated) and write the file. -/
def runOnceFinish (cursor : SyncCursor) (nextCursor : ApiCursorAdvance)
    (sentApi : Nat) (apiDelivered snapshotSent : Bool) : RunOnceResult :=
  let merged :=
    if apiDelivered then
      { api_last_ts_ms := nextCursor.api_last_ts_ms
        api_last_keys := nextCursor.api_last_keys
        snapshot_last_ts := cursor.snapshot_last_ts }
    else cursor
  { threw := false, cursorFile := merged, apiEventsSent := sentApi,
    snapshotSent := snapshotSent }

/-- The snapshot section of `runOnce` (sync-outbound.mjs lines 239-252):
post the latest snapshot when its `ts` is non-empty and differs from the
cursor's `snapshot_last_ts`; on success record it in the cursor, on a
thrown POST exit by exception with the cursor file untouched. -/
def runOnceSnapshotStep (env : SyncEnv) (cursor : SyncCursor)
    (nextCursor : ApiCursorAdvance) (sentApi : Nat) (apiDelivered : Bool) :
    RunOnceResult :=
  match env.snapshots.getLast? with
  | none => runOnceFinish cursor nextCursor sentApi apiDelivered false
  | some latest =>
    let latestTs := strOfField (jLookup latest ("ts".toList))
    if latestTs ≠ [] ∧ latestTs ≠ cursor.snapshot_last_ts then
      match postPayloadResult env.urlSet env.snapshotPost with
      | Except.error _ =>
        { threw := true, cursorFile := env.cursorFile, apiEventsSent := sentApi,
          snapshotSent := false }
      | Except.ok snapOk =>
        let cursor' :=
          if snapOk then { cursor with snapshot_last_ts := latestTs } else cursor
        runOnceFinish cursor' nextCursor sentApi apiDelivered snapOk
    else runOnceFinish cursor nextCursor sentApi apiDelivered false

/-- `runOnce` (sync-outbound.mjs lines 213-270): select the unsent api
batch, sanitize it, POST it (a thrown POST aborts the run with the cursor
file untouched), then handle the snapshot POST, and only then write the
merged cursor atomically. -/
def runOnce (env : SyncEnv) : RunOnceResult :=
  let cursor := env.cursorFile
  let sel := selectUnsentApiEvents env.apiEvents cursor env.batchSize
  let sanitizedApiEvents := sel.1.map sanitizeApiEvent
  if sanitizedApiEvents.length > 0 then
    match postPayloadResult env.urlSet env.apiPost with
    | Except.error _ =>
      { threw := true, cursorFile := cursor, apiEventsSent := 0,
        snapshotSent := false }
    | Except.ok apiOk =>
      runOnceSnapshotStep env cursor sel.2
        (if apiOk then sanitizedApiEvents.length else 0) apiOk
  else runOnceSnapshotStep env cursor sel.2 0 false
/-! ### Spec-side decomposition forms and loop keep-predicates -/

/-- Spec-side decomposition form of the e-mail pattern
`/\b[a-z0-9._%+-]+@[a-z0-9.-]+\.[a-z]{2,}\b/i`: the subject contains an
e-mail-address-shaped substring (with the `\b` context conditions). -/
def EmailDecomp (s : Str) : Prop :=
  ∃ pre loc dom tld post : Str,
    s = pre ++ loc ++ ['@'] ++ dom ++ ['.'] ++ tld ++ post ∧
    loc ≠ [] ∧ (∀ c ∈ loc, isEmailLocalChar c) ∧
    dom ≠ [] ∧ (∀ c ∈ dom, isEmailDomainChar c) ∧
    2 ≤ tld.length ∧ (∀ c ∈ tld, isAsciiAlpha c) ∧
    wOpt pre.getLast? ≠ wOpt loc.head? ∧
    wOpt tld.getLast? ≠ wOpt post.head?

/-- Spec-side decomposition form of the bearer-token pattern
`/\bbearer\s+[a-z0-9._~+/=-]{8,}/i`. -/
def BearerDecomp (s : Str) : Prop :=
  ∃ pre bw sp tok post : Str,
    s = pre ++ bw ++ sp ++ tok ++ post ∧
    jsToLower bw = ("bearer".toList) ∧
    sp ≠ [] ∧ (∀ c ∈ sp, isJsSpace c) ∧
    8 ≤ tok.length ∧ (∀ c ∈ tok, isTokenChar c) ∧
    wOpt pre.getLast? ≠ wOpt bw.head?

/-- The per-fact keep condition of the `selectUnsentApiEvents` loop: a
well-formed timestamp, a non-empty dedupe key, and not covered by the
cursor. -/
def syncKeepPred (lastTs : Int) (lastKeys : List Str) (ev : JObj) : Bool :=
  match tsOfEvent ev with
  | none => false
  | some ts =>
    if keyOfEvent ev = [] then false
    else if ts < lastTs then false
    else if ts = lastTs ∧ keyOfEvent ev ∈ lastKeys then false
    else true

/-- The per-fact keep condition of the skill-event cursor loop. -/
def skillKeepPred (lastTs : Int) (lastKeys : List Str) (ev : SkillEvent) : Bool :=
  match ev.ts_ms with
  | none => false
  | some ts =>
    if ts < lastTs then false
    else if ts = lastTs ∧ ev.dedupe_key ∈ lastKeys then false
    else true

/-! ### Theorems -/

lemma mem_insertSorted {le : α → α → Bool} {x a : α} {l : List α} :
    a ∈ insertSorted le x l ↔ a = x ∨ a ∈ l := by
  induction l with
  | nil => simp [insertSorted]
  | cons y ys ih =>
    simp only [insertSorted]
    split
    · simp [ih]
      tauto
    · simp

lemma mem_stableSortBy {le : α → α → Bool} {a : α} {l : List α} :
    a ∈ stableSortBy le l ↔ a ∈ l := by
  induction l with
  | nil => simp [stableSortBy]
  | cons x xs ih => simp [stableSortBy, mem_insertSorted, ih]

/-- C7: `computeServiceStatusNow` returns "down" whenever the gateway probe
failed, "degraded" when it succeeded but restarts or active errors are
positive, and "running" when it succeeded with no positive restart or
error count (null counts included). -/
theorem computeServiceStatusNow_spec (ok : Bool) (r c : Option Int) :
    (ok = false → computeServiceStatusNow ok r c = ("down".toList)) ∧
    (ok = true → ((∃ n, r = some n ∧ 0 < n) ∨ (∃ n, c = some n ∧ 0 < n)) →
      computeServiceStatusNow ok r c = ("degraded".toList)) ∧
    (ok = true → (∀ n, r = some n → n ≤ 0) → (∀ n, c = some n → n ≤ 0) →
      computeServiceStatusNow ok r c = ("running".toList)) := by
  refine ⟨fun h => by simp [computeServiceStatusNow, h], ?_, ?_⟩
  · rintro rfl (⟨n, rfl, hn⟩ | ⟨n, rfl, hn⟩)
    · simp [computeServiceStatusNow, hn]
    · simp only [computeServiceStatusNow]
      have : decide (0 < n) = true := by simpa using hn
      simp [this]
  · rintro rfl hr hc
    cases r with
    | none =>
      cases c with
      | none => rfl
      | some m =>
        have hm := hc m rfl
        simp only [computeServiceStatusNow]
        simp
        omega
    | some n =>
      have hn := hr n rfl
      cases c with
      | none =>
        simp only [computeServiceStatusNow]
        simp
        omega
      | some m =>
        have hm := hc m rfl
        simp only [computeServiceStatusNow]
        simp
        constructor <;> omega

/-- C8 (amended): in loop mode the PID lock is honoured — with a live lock
`main` stops after the lock check and never runs the pipeline, and with a
stale or missing lock it acquires the lock, runs the pipeline and releases
it; but a `--once` invocation (the argv the hook controller spawns) runs
the pipeline unconditionally, whatever the lock state, with no lock check
at all; a lock whose PID is not alive or whose file is absent is stale. -/
theorem mainTrace_lock_behavior :
    (mainTrace [] true = [ProbeAction.checkLock] ∧
      ProbeAction.runPipeline ∉ mainTrace [] true) ∧
    (mainTrace [] false =
      [ProbeAction.checkLock, ProbeAction.acquireLock, ProbeAction.runPipeline,
       ProbeAction.releaseLock]) ∧
    (∀ dir : Str, dir ≠ ("--help".toList) → dir ≠ ("-h".toList) → ∀ b : Bool,
      mainTrace (hookPipelineArgv dir) b = [ProbeAction.runPipeline]) ∧
    (∀ content : Str, lockAlive (some content) (fun _ => false) = false) ∧
    (∀ alive : Int → Bool, lockAlive none alive = false) := by
  refine ⟨by decide, by decide, ?_, ?_, fun _ => rfl⟩
  · intro dir h1 h2 b
    have e1 : hasFlag (hookPipelineArgv dir) ("--help".toList) = false := by
      simp [hasFlag, hookPipelineArgv]
      exact fun hx => h1 hx.symm
    have e2 : hasFlag (hookPipelineArgv dir) ("-h".toList) = false := by
      simp [hasFlag, hookPipelineArgv]
      exact fun hx => h2 hx.symm
    have e3 : hasFlag (hookPipelineArgv dir) ("--once".toList) = true := by
      simp [hasFlag, hookPipelineArgv]
    unfold mainTrace
    rw [e1, e2, e3]
    simp
  · intro content
    cases h : jsNumOfField (some (JVal.jstr (jsTrim content))) with
    | none => simp [lockAlive, h]
    | some pid =>
      simp only [lockAlive, h]
      split <;> rfl

lemma mem_upsertByKey {m : List (Str × NormApiEvent)} {ev e : NormApiEvent}
    (h : e ∈ (upsertByKey m ev).map (·.2)) : e ∈ m.map (·.2) ∨ e = ev := by
  induction m with
  | nil => right; simpa [upsertByKey] using h
  | cons p rest ih =>
    obtain ⟨k, old⟩ := p
    by_cases hk : k = ev.dedupe_key
    · simp [upsertByKey, hk] at h
      rcases h with h | h
      · by_cases ht : ev.ts_ms > old.ts_ms
        · simp [ht] at h; right; exact h
        · simp [ht] at h; left; simp [h]
      · left; simp [h]
    · simp [upsertByKey, hk] at h
      rcases h with h | h
      · left; simp [h]
      · rcases ih (by simpa using h) with h' | h'
        · left; simp at h' ⊢; right; exact h'
        · right; exact h'

lemma loadApiStep_dedup (retainedFrom upperBound : Int) (st : LoadFoldState) (raw : JObj) :
    (loadApiStep retainedFrom upperBound st raw).dedupedByKey = st.dedupedByKey ∨
    ∃ event, (normalizeApiFactEvent raw).event = some event ∧
      retainedFrom ≤ event.ts_ms ∧ event.ts_ms ≤ upperBound ∧
      (loadApiStep retainedFrom upperBound st raw).dedupedByKey =
        upsertByKey st.dedupedByKey event := by
  rcases hn : (normalizeApiFactEvent raw).event with _ | event
  · left
    simp only [loadApiStep, hn]
    split <;> rfl
  · by_cases hw : event.ts_ms < retainedFrom ∨ event.ts_ms > upperBound
    · left; simp only [loadApiStep, hn, if_pos hw]
    · right
      exact ⟨event, rfl, by omega, by omega, by simp only [loadApiStep, hn, if_neg hw]⟩

lemma loadFold_window (retainedFrom upperBound : Int) (l : List JObj) (st : LoadFoldState)
    (hst : ∀ e ∈ st.dedupedByKey.map (·.2), retainedFrom ≤ e.ts_ms ∧ e.ts_ms ≤ upperBound) :
    ∀ e ∈ (l.foldl (loadApiStep retainedFrom upperBound) st).dedupedByKey.map (·.2),
      retainedFrom ≤ e.ts_ms ∧ e.ts_ms ≤ upperBound := by
  induction l generalizing st with
  | nil => exact hst
  | cons raw rest ih =>
    intro e he
    refine ih (loadApiStep retainedFrom upperBound st raw) ?_ e he
    intro x hx
    rcases loadApiStep_dedup retainedFrom upperBound st raw with h | ⟨event, _, h1, h2, h⟩
    · rw [h] at hx; exact hst x hx
    · rw [h] at hx
      rcases mem_upsertByKey hx with h' | h'
      · exact hst x h'
      · subst h'; exact ⟨h1, h2⟩

lemma skillRetentionRewrite_fst (log : List SkillEvent) (now : Int) (ex : Bool) :
    (skillRetentionRewrite log now ex).1 = log.filter (fun e =>
      match e.ts_ms with
      | some t => decide (t ≥ now - skillEventRetentionMs)
      | none => false) := by
  simp only [skillRetentionRewrite]
  split_ifs with h1 h2
  · rfl
  · exact (List.eq_nil_of_length_eq_zero (by omega)).symm
  · exact (List.eq_nil_of_length_eq_zero (by omega)).symm

lemma loadApi_eventsWrite_fst (rawFacts : List JObj) (now : Int) (f1 f2 : Bool) :
    (loadApiFactEvents rawFacts now f1 f2).eventsWrite.1 =
      (loadApiFactEvents rawFacts now f1 f2).events := by
  simp only [loadApiFactEvents]
  split_ifs <;>
    first
    | rfl
    | (exact (List.eq_nil_of_length_eq_zero (by omega)).symm)

lemma loadApi_events_window (rawFacts : List JObj) (now : Int) (f1 f2 : Bool) :
    ∀ e ∈ (loadApiFactEvents rawFacts now f1 f2).events,
      now - apiEventRetentionMs ≤ e.ts_ms ∧ e.ts_ms ≤ now + 60000 := by
  intro e he
  unfold loadApiFactEvents at he
  simp only [sortEventsByTs] at he
  rw [mem_stableSortBy] at he
  exact loadFold_window (now - apiEventRetentionMs) (now + 60000) rawFacts ⟨0, 0, 0, []⟩
    (by intro x hx; simp at hx) e he

lemma skillRetentionRewrite_snd (log : List SkillEvent) (now : Int) (ex : Bool)
    (h : (skillRetentionRewrite log now ex).1 ≠ []) :
    (skillRetentionRewrite log now ex).2 = WriteMethod.tempRename := by
  rw [skillRetentionRewrite_fst] at h
  simp only [skillRetentionRewrite]
  split_ifs with h1 h2
  · rfl
  · exact absurd (List.eq_nil_of_length_eq_zero (by omega)) h
  · exact absurd (List.eq_nil_of_length_eq_zero (by omega)) h

lemma loadApi_eventsWrite_snd (rawFacts : List JObj) (now : Int) (f1 f2 : Bool)
    (h : (loadApiFactEvents rawFacts now f1 f2).eventsWrite.1 ≠ []) :
    (loadApiFactEvents rawFacts now f1 f2).eventsWrite.2 = WriteMethod.tempRename := by
  rw [loadApi_eventsWrite_fst] at h
  simp only [loadApiFactEvents] at h ⊢
  split_ifs with h1 h2
  · rfl
  · exact absurd (List.eq_nil_of_length_eq_zero (by omega)) h
  · exact absurd (List.eq_nil_of_length_eq_zero (by omega)) h

/-- C9 (amended): after a run, both retained stores contain only events
within their retention horizon, and whenever the surviving list is
non-empty the rewrite uses a temp-file-plus-rename; when every event has
expired the store is instead truncated in place (see the counterexample). -/
theorem c9_retention_amended :
    (∀ (oldLog incremental : List SkillEvent) (nowMs : Int) (fileExists : Bool),
      (∀ e ∈ (skillEventsAfterRun oldLog incremental nowMs fileExists).1,
        ∃ t, e.ts_ms = some t ∧ nowMs - skillEventRetentionMs ≤ t) ∧
      ((skillEventsAfterRun oldLog incremental nowMs fileExists).1 ≠ [] →
        (skillEventsAfterRun oldLog incremental nowMs fileExists).2 =
          WriteMethod.tempRename)) ∧
    (∀ (rawFacts : List JObj) (nowMs : Int) (f1 f2 : Bool),
      (∀ e ∈ (loadApiFactEvents rawFacts nowMs f1 f2).eventsWrite.1,
        nowMs - apiEventRetentionMs ≤ e.ts_ms ∧ e.ts_ms ≤ nowMs + 60000) ∧
      ((loadApiFactEvents rawFacts nowMs f1 f2).eventsWrite.1 ≠ [] →
        (loadApiFactEvents rawFacts nowMs f1 f2).eventsWrite.2 =
          WriteMethod.tempRename)) := by
  constructor
  · intro oldLog incremental nowMs fileExists
    constructor
    · intro e he
      rw [skillEventsAfterRun, skillRetentionRewrite_fst] at he
      obtain ⟨-, hp⟩ := List.mem_filter.mp he
      cases ht : e.ts_ms with
      | none => rw [ht] at hp; simp at hp
      | some t =>
        rw [ht] at hp
        simp at hp
        exact ⟨t, rfl, by omega⟩
    · exact skillRetentionRewrite_snd _ _ _
  · intro rawFacts nowMs f1 f2
    refine ⟨?_, loadApi_eventsWrite_snd _ _ _ _⟩
    intro e he
    rw [loadApi_eventsWrite_fst] at he
    exact loadApi_events_window rawFacts nowMs f1 f2 e he

/-- C9 counterexample: a skill log whose only event lies outside the
retention horizon is rewritten by truncating the file in place, not by the
temp-file-plus-rename path the claim asserts for every rewrite. -/
theorem c9_retention_cex :
    (skillEventsAfterRun [⟨some 0, ("a".toList), ("s".toList)⟩] [] 1000000000000 true).2 =
      WriteMethod.truncateInPlace ∧
    (skillEventsAfterRun [⟨some 0, ("a".toList), ("s".toList)⟩] [] 1000000000000 true).2 ≠
      WriteMethod.tempRename := by
  constructor <;> decide

set_option maxHeartbeats 2000000 in
set_option maxRecDepth 4000 in
theorem c9_retention_amended_witness :
    (∃ t, (⟨some 1000000000000, ("a".toList), ("s".toList)⟩ : SkillEvent).ts_ms = some t ∧
      1000000000000 - skillEventRetentionMs ≤ t) ∧
    (skillEventsAfterRun [⟨some 1000000000000, ("a".toList), ("s".toList)⟩] []
      1000000000000 true).2 = WriteMethod.tempRename ∧
    (loadApiFactEvents
      [[(("ts".toList), JVal.jnum 2000000000000),
        (("provider".toList), JVal.jstr ("l".toList)),
        (("method".toList), JVal.jstr ("g".toList)),
        (("host".toList), JVal.jstr ("h".toList)),
        (("path_template".toList), JVal.jstr ("/p".toList)),
        (("endpoint_group".toList), JVal.jstr ("g".toList)),
        (("dedupe_key".toList), JVal.jstr ("k".toList))]]
      2000000000000 true true).eventsWrite.2 = WriteMethod.tempRename :=
  ⟨(c9_retention_amended.1 [⟨some 1000000000000, ("a".toList), ("s".toList)⟩] []
      1000000000000 true).1 _ (by decide),
   (c9_retention_amended.1 [⟨some 1000000000000, ("a".toList), ("s".toList)⟩] []
      1000000000000 true).2 (by decide),
   (c9_retention_amended.2 _ 2000000000000 true true).2 (by decide)⟩

lemma syncGo_fst_eq (batch : Nat) (lastTs : Int) (lastKeys : List Str)
    (l : List JObj) :
    ∀ (cnt : Nat) (maxTs : Int) (maxKeys : List Str), cnt < batch →
      (syncGo batch lastTs lastKeys l cnt maxTs maxKeys).1 =
        (l.filter (syncKeepPred lastTs lastKeys)).take (batch - cnt) := by
  induction l with
  | nil => intro cnt maxTs maxKeys h; simp [syncGo]
  | cons ev rest ih =>
    intro cnt maxTs maxKeys h
    cases hts : tsOfEvent ev with
    | none =>
      simp only [syncGo, hts, List.filter_cons, syncKeepPred]
      exact ih cnt maxTs maxKeys h
    | some ts =>
      by_cases hk : keyOfEvent ev = []
      · simp only [syncGo, hts, if_pos hk, List.filter_cons, syncKeepPred]
        exact ih cnt maxTs maxKeys h
      · by_cases h1 : ts < lastTs
        · simp only [syncGo, hts, if_neg hk, if_pos h1, List.filter_cons, syncKeepPred]
          exact ih cnt maxTs maxKeys h
        · by_cases h2 : ts = lastTs ∧ keyOfEvent ev ∈ lastKeys
          · simp only [syncGo, hts, if_neg hk, if_neg h1, if_pos h2, List.filter_cons,
              syncKeepPred]
            exact ih cnt maxTs maxKeys h
          · have hkeep : syncKeepPred lastTs lastKeys ev = true := by
              simp only [syncKeepPred, hts, if_neg hk, if_neg h1, if_neg h2]
            simp only [syncGo, hts, if_neg hk, if_neg h1, if_neg h2, List.filter_cons, hkeep,
              if_pos rfl]
            by_cases hb : cnt + 1 ≥ batch
            · rw [if_pos hb]
              have : batch - cnt = 1 := by omega
              simp [this]
            · rw [if_neg hb]
              have h3 : cnt + 1 < batch := by omega
              have := ih (cnt + 1) (if ts > maxTs then (ts, [keyOfEvent ev])
                else if ts = maxTs then (maxTs, addKey maxKeys (keyOfEvent ev))
                else (maxTs, maxKeys)).1
                (if ts > maxTs then (ts, [keyOfEvent ev])
                else if ts = maxTs then (maxTs, addKey maxKeys (keyOfEvent ev))
                else (maxTs, maxKeys)).2 h3
              rw [this]
              have : batch - cnt = (batch - (cnt + 1)) + 1 := by omega
              simp [this]

lemma skillGo_fst_eq (lastTs : Int) (lastKeys : List Str) (l : List SkillEvent) :
    ∀ (maxTs : Int) (maxKeys : List Str),
      (skillGo lastTs lastKeys l maxTs maxKeys).1 =
        l.filter (skillKeepPred lastTs lastKeys) := by
  induction l with
  | nil => intro maxTs maxKeys; simp [skillGo]
  | cons ev rest ih =>
    intro maxTs maxKeys
    cases hts : ev.ts_ms with
    | none =>
      simp only [skillGo, hts, List.filter_cons, skillKeepPred]
      exact ih maxTs maxKeys
    | some ts =>
      by_cases h1 : ts < lastTs
      · simp only [skillGo, hts, if_pos h1, List.filter_cons, skillKeepPred]
        exact ih maxTs maxKeys
      · by_cases h2 : ts = lastTs ∧ ev.dedupe_key ∈ lastKeys
        · simp only [skillGo, hts, if_neg h1, if_pos h2, List.filter_cons, skillKeepPred]
          exact ih maxTs maxKeys
        · have hkeep : skillKeepPred lastTs lastKeys ev = true := by
            simp only [skillKeepPred, hts, if_neg h1, if_neg h2]
          simp only [skillGo, hts, if_neg h1, if_neg h2, List.filter_cons, hkeep, if_pos rfl]
          simp [ih]

lemma skillGo_maxTs_mono (lastTs : Int) (lastKeys : List Str) (l : List SkillEvent) :
    ∀ (maxTs : Int) (maxKeys : List Str),
      maxTs ≤ (skillGo lastTs lastKeys l maxTs maxKeys).2.1 := by
  induction l with
  | nil => intro maxTs maxKeys; simp [skillGo]
  | cons ev rest ih =>
    intro maxTs maxKeys
    cases hts : ev.ts_ms with
    | none => simpa only [skillGo, hts] using ih maxTs maxKeys
    | some ts =>
      by_cases h1 : ts < lastTs
      · simpa only [skillGo, hts, if_pos h1] using ih maxTs maxKeys
      · by_cases h2 : ts = lastTs ∧ ev.dedupe_key ∈ lastKeys
        · simpa only [skillGo, hts, if_neg h1, if_pos h2] using ih maxTs maxKeys
        · simp only [skillGo, hts, if_neg h1, if_neg h2]
          by_cases h3 : ts > maxTs
          · simp only [if_pos h3]
            have := ih ts [ev.dedupe_key]
            omega
          · by_cases h4 : ts = maxTs
            · simp only [if_neg h3, if_pos h4]
              exact ih maxTs (addKey maxKeys ev.dedupe_key)
            · simp only [if_neg h3, if_neg h4]
              exact ih maxTs maxKeys

lemma syncGo_maxTs_mono (batch : Nat) (lastTs : Int) (lastKeys : List Str)
    (l : List JObj) :
    ∀ (cnt : Nat) (maxTs : Int) (maxKeys : List Str),
      maxTs ≤ (syncGo batch lastTs lastKeys l cnt maxTs maxKeys).2.1 := by
  induction l with
  | nil => intro cnt maxTs maxKeys; simp [syncGo]
  | cons ev rest ih =>
    intro cnt maxTs maxKeys
    cases hts : tsOfEvent ev with
    | none => simpa only [syncGo, hts] using ih cnt maxTs maxKeys
    | some ts =>
      by_cases hk : keyOfEvent ev = []
      · simpa only [syncGo, hts, if_pos hk] using ih cnt maxTs maxKeys
      · by_cases h1 : ts < lastTs
        · simpa only [syncGo, hts, if_neg hk, if_pos h1] using ih cnt maxTs maxKeys
        · by_cases h2 : ts = lastTs ∧ keyOfEvent ev ∈ lastKeys
          · simpa only [syncGo, hts, if_neg hk, if_neg h1, if_pos h2] using
              ih cnt maxTs maxKeys
          · simp only [syncGo, hts, if_neg hk, if_neg h1, if_neg h2]
            by_cases hb : cnt + 1 ≥ batch
            · rw [if_pos hb]
              by_cases h3 : ts > maxTs
              · simp only [if_pos h3]; omega
              · by_cases h4 : ts = maxTs
                · simp only [if_neg h3, if_pos h4]
                  omega
                · simp only [if_neg h3, if_neg h4]
                  omega
            · rw [if_neg hb]
              by_cases h3 : ts > maxTs
              · simp only [if_pos h3]
                have := ih (cnt + 1) ts [keyOfEvent ev]
                omega
              · by_cases h4 : ts = maxTs
                · simp only [if_neg h3, if_pos h4]
                  exact ih (cnt + 1) maxTs (addKey maxKeys (keyOfEvent ev))
                · simp only [if_neg h3, if_neg h4]
                  exact ih (cnt + 1) maxTs maxKeys

lemma selectUnsentApiEvents_ts_mono (events : List JObj) (cursor : SyncCursor)
    (batch : Nat) :
    cursor.api_last_ts_ms ≤ (selectUnsentApiEvents events cursor batch).2.api_last_ts_ms :=
  syncGo_maxTs_mono batch cursor.api_last_ts_ms cursor.api_last_keys
    (sortApiEvents events) 0 cursor.api_last_ts_ms cursor.api_last_keys

lemma runOnceSnapshotStep_ts (env : SyncEnv) (cursor : SyncCursor)
    (next : ApiCursorAdvance) (sentApi : Nat) (apiDelivered : Bool)
    (h1 : cursor.api_last_ts_ms = env.cursorFile.api_last_ts_ms)
    (h2 : env.cursorFile.api_last_ts_ms ≤ next.api_last_ts_ms) :
    env.cursorFile.api_last_ts_ms ≤
      (runOnceSnapshotStep env cursor next sentApi apiDelivered).cursorFile.api_last_ts_ms := by
  rcases hl : env.snapshots.getLast? with _ | latest
  · simp only [runOnceSnapshotStep, hl, runOnceFinish]
    cases apiDelivered <;> simp <;> omega
  · simp only [runOnceSnapshotStep, hl]
    split_ifs with hcond
    · rcases hp : postPayloadResult env.urlSet env.snapshotPost with e | snapOk
      · simp only [hp]
        omega
      · simp only [hp, runOnceFinish]
        cases snapOk <;> cases apiDelivered <;> simp <;> omega
    · simp only [runOnceFinish]
      cases apiDelivered <;> simp <;> omega

/-- C3: for both cursors — the skill-extraction cursor in probe.mjs and the
sync cursor in sync-outbound.mjs — the cursor-advance step never decreases
the stored cursor timestamp, for every prior cursor state and every fact
list (including the empty one); for the sync side this also holds for the
cursor file actually persisted by `runOnce`, on every one of its paths. -/
theorem c3_cursor_monotonic :
    (∀ (cursor : SkillCursor) (facts : List SkillEvent),
      cursor.last_ts_ms ≤ (collectSkillIncremental cursor facts).2.last_ts_ms) ∧
    (∀ (events : List JObj) (cursor : SyncCursor) (batch : Nat),
      cursor.api_last_ts_ms ≤
        (selectUnsentApiEvents events cursor batch).2.api_last_ts_ms) ∧
    (∀ env : SyncEnv,
      env.cursorFile.api_last_ts_ms ≤ (runOnce env).cursorFile.api_last_ts_ms) := by
  refine ⟨?_, selectUnsentApiEvents_ts_mono, ?_⟩
  · intro cursor facts
    unfold collectSkillIncremental
    have hm := skillGo_maxTs_mono cursor.last_ts_ms cursor.last_keys
      (sortSkillFacts facts) cursor.last_ts_ms cursor.last_keys
    simp only []
    rw [if_pos (by omega)]
    exact hm
  · intro env
    unfold runOnce
    simp only []
    split_ifs with hlen
    · rcases hp : postPayloadResult env.urlSet env.apiPost with e | apiOk
      · simp only [hp]
        omega
      · simp only [hp]
        exact runOnceSnapshotStep_ts env env.cursorFile _ _ _ rfl
          (selectUnsentApiEvents_ts_mono env.apiEvents env.cursorFile env.batchSize)
    · exact runOnceSnapshotStep_ts env env.cursorFile _ _ _ rfl
        (selectUnsentApiEvents_ts_mono env.apiEvents env.cursorFile env.batchSize)

/-- C2 (amended): the skill-side cursor filter accepts a well-formed fact
iff the cursor does not cover it; the sync-side selection equals the
cursor-filtered, timestamp-sorted list truncated to the configured batch
size, and its per-fact condition agrees with the cursor-coverage predicate
on well-formed facts. -/
theorem c2_cursor_filter_amended :
    (∀ (cursor : SkillCursor) (facts : List SkillEvent) (f : SkillEvent) (t : Int),
      f.ts_ms = some t →
      (f ∈ (collectSkillIncremental cursor facts).1 ↔
        (f ∈ facts ∧
          ¬(t < cursor.last_ts_ms ∨
            (t = cursor.last_ts_ms ∧ f.dedupe_key ∈ cursor.last_keys))))) ∧
    (∀ (events : List JObj) (cursor : SyncCursor) (batch : Nat), 1 ≤ batch →
      (selectUnsentApiEvents events cursor batch).1 =
        ((sortApiEvents events).filter
          (syncKeepPred cursor.api_last_ts_ms cursor.api_last_keys)).take batch) ∧
    (∀ (lastTs : Int) (lastKeys : List Str) (ev : JObj) (t : Int),
      tsOfEvent ev = some t → keyOfEvent ev ≠ [] →
      (syncKeepPred lastTs lastKeys ev = true ↔
        ¬(t < lastTs ∨ (t = lastTs ∧ keyOfEvent ev ∈ lastKeys)))) := by
  refine ⟨?_, ?_, ?_⟩
  · intro cursor facts f t hts
    unfold collectSkillIncremental
    simp only []
    rw [skillGo_fst_eq, List.mem_filter]
    rw [show sortSkillFacts facts =
      stableSortBy (fun a b => decide (a.ts_ms.getD 0 ≤ b.ts_ms.getD 0)) facts from rfl,
      mem_stableSortBy]
    constructor
    · rintro ⟨hmem, hpred⟩
      refine ⟨hmem, ?_⟩
      simp only [skillKeepPred, hts] at hpred
      split_ifs at hpred with h1 h2
      rintro (h | h) <;> [exact h1 h; exact h2 h]
    · rintro ⟨hmem, hcond⟩
      refine ⟨hmem, ?_⟩
      simp only [skillKeepPred, hts]
      rw [if_neg (fun h => hcond (Or.inl h)), if_neg (fun h => hcond (Or.inr h))]
  · intro events cursor batch hb
    unfold selectUnsentApiEvents
    simp only []
    rw [syncGo_fst_eq batch cursor.api_last_ts_ms cursor.api_last_keys
      (sortApiEvents events) 0 cursor.api_last_ts_ms cursor.api_last_keys (by omega)]
    norm_num
  · intro lastTs lastKeys ev t hts hk
    simp only [syncKeepPred, hts, if_neg hk]
    constructor
    · intro hpred
      split_ifs at hpred with h1 h2
      rintro (h | h) <;> [exact h1 h; exact h2 h]
    · intro hcond
      rw [if_neg (fun h => hcond (Or.inl h)), if_neg (fun h => hcond (Or.inr h))]

/-- C2 counterexample: with batch size 1 and a fresh cursor, the second of
two new facts is not selected by `selectUnsentApiEvents` although its
timestamp (6) exceeds the cursor timestamp (0), contradicting the claimed
"every other fact is accepted" direction. -/
theorem c2_cursor_filter_cex :
    [(("ts_ms".toList), JVal.jnum 6), (("dedupe_key".toList), JVal.jstr ("b".toList))] ∈
      ([[(("ts_ms".toList), JVal.jnum 5), (("dedupe_key".toList), JVal.jstr ("a".toList))],
        [(("ts_ms".toList), JVal.jnum 6), (("dedupe_key".toList), JVal.jstr ("b".toList))]] :
        List JObj) ∧
    [(("ts_ms".toList), JVal.jnum 6), (("dedupe_key".toList), JVal.jstr ("b".toList))] ∉
      (selectUnsentApiEvents
        [[(("ts_ms".toList), JVal.jnum 5), (("dedupe_key".toList), JVal.jstr ("a".toList))],
         [(("ts_ms".toList), JVal.jnum 6), (("dedupe_key".toList), JVal.jstr ("b".toList))]]
        ⟨0, [], []⟩ 1).1 ∧
    ¬((6 : Int) < 0 ∨ ((6 : Int) = 0 ∧ ("b".toList) ∈ ([] : List Str))) := by
  refine ⟨by decide, by decide, by decide⟩

set_option maxHeartbeats 1000000 in
theorem c2_cursor_filter_amended_witness :
    ((⟨some 6, ("b".toList), ("s".toList)⟩ : SkillEvent) ∈
      (collectSkillIncremental ⟨5, []⟩
        [⟨some 4, ("a".toList), ("s".toList)⟩, ⟨some 6, ("b".toList), ("s".toList)⟩]).1 ↔
      ((⟨some 6, ("b".toList), ("s".toList)⟩ : SkillEvent) ∈
        [⟨some 4, ("a".toList), ("s".toList)⟩, ⟨some 6, ("b".toList), ("s".toList)⟩] ∧
        ¬((6 : Int) < 5 ∨ ((6 : Int) = 5 ∧ ("b".toList) ∈ ([] : List Str))))) ∧
    (selectUnsentApiEvents
        [[(("ts_ms".toList), JVal.jnum 5), (("dedupe_key".toList), JVal.jstr ("a".toList))]]
        ⟨0, [], []⟩ 2).1 =
      ((sortApiEvents
        [[(("ts_ms".toList), JVal.jnum 5), (("dedupe_key".toList), JVal.jstr ("a".toList))]]).filter
          (syncKeepPred 0 [])).take 2 ∧
    (syncKeepPred 3 [("a".toList)]
        [(("ts_ms".toList), JVal.jnum 5), (("dedupe_key".toList), JVal.jstr ("a".toList))] = true ↔
      ¬((5 : Int) < 3 ∨ ((5 : Int) = 3 ∧ ("a".toList) ∈ [("a".toList)]))) :=
  ⟨c2_cursor_filter_amended.1 ⟨5, []⟩
      [⟨some 4, ("a".toList), ("s".toList)⟩, ⟨some 6, ("b".toList), ("s".toList)⟩]
      ⟨some 6, ("b".toList), ("s".toList)⟩ 6 rfl,
   c2_cursor_filter_amended.2.1
      [[(("ts_ms".toList), JVal.jnum 5), (("dedupe_key".toList), JVal.jstr ("a".toList))]]
      ⟨0, [], []⟩ 2 (by omega),
   c2_cursor_filter_amended.2.2 3 [("a".toList)]
      [(("ts_ms".toList), JVal.jnum 5), (("dedupe_key".toList), JVal.jstr ("a".toList))] 5
      (by decide) (by decide)⟩

/-- C1: when the api-events POST is attempted (non-empty selected batch, a
sync URL configured) and fails with a non-2xx response or a network error,
`runOnce` exits by exception, the persisted sync cursor file is unchanged,
and the next invocation over the same event store selects exactly the same
batch. -/
theorem c1_failed_post_preserves_cursor (env : SyncEnv)
    (hurl : env.urlSet = true)
    (hne : (selectUnsentApiEvents env.apiEvents env.cursorFile env.batchSize).1 ≠ [])
    (hfail : env.apiPost ≠ PostOutcome.httpOk) :
    (runOnce env).threw = true ∧
    (runOnce env).cursorFile = env.cursorFile ∧
    selectUnsentApiEvents env.apiEvents (runOnce env).cursorFile env.batchSize =
      selectUnsentApiEvents env.apiEvents env.cursorFile env.batchSize := by
  have hlen :
      (List.map sanitizeApiEvent
        (selectUnsentApiEvents env.apiEvents env.cursorFile env.batchSize).1).length > 0 := by
    rw [List.length_map]
    exact List.length_pos.mpr hne
  have hpost : postPayloadResult env.urlSet env.apiPost = Except.error () := by
    rw [hurl]
    rcases h : env.apiPost
    · exact absurd h hfail
    · rfl
    · rfl
  have hres : runOnce env =
      { threw := true, cursorFile := env.cursorFile, apiEventsSent := 0,
        snapshotSent := false } := by
    unfold runOnce
    simp only []
    rw [if_pos hlen]
    simp [hpost]
  refine ⟨by rw [hres], by rw [hres], by rw [hres]⟩

set_option maxHeartbeats 1000000 in
theorem c1_failed_post_preserves_cursor_witness :
    (runOnce ⟨true, 200, ⟨0, [], []⟩,
      [[(("ts_ms".toList), JVal.jnum 5), (("dedupe_key".toList), JVal.jstr ("a".toList))]],
      [], PostOutcome.httpErr, PostOutcome.httpOk⟩).threw = true ∧
    (runOnce ⟨true, 200, ⟨0, [], []⟩,
      [[(("ts_ms".toList), JVal.jnum 5), (("dedupe_key".toList), JVal.jstr ("a".toList))]],
      [], PostOutcome.httpErr, PostOutcome.httpOk⟩).cursorFile = ⟨0, [], []⟩ ∧
    selectUnsentApiEvents
      [[(("ts_ms".toList), JVal.jnum 5), (("dedupe_key".toList), JVal.jstr ("a".toList))]]
      (runOnce ⟨true, 200, ⟨0, [], []⟩,
        [[(("ts_ms".toList), JVal.jnum 5), (("dedupe_key".toList), JVal.jstr ("a".toList))]],
        [], PostOutcome.httpErr, PostOutcome.httpOk⟩).cursorFile 200 =
      selectUnsentApiEvents
        [[(("ts_ms".toList), JVal.jnum 5), (("dedupe_key".toList), JVal.jstr ("a".toList))]]
        ⟨0, [], []⟩ 200 :=
  c1_failed_post_preserves_cursor ⟨true, 200, ⟨0, [], []⟩,
    [[(("ts_ms".toList), JVal.jnum 5), (("dedupe_key".toList), JVal.jstr ("a".toList))]],
    [], PostOutcome.httpErr, PostOutcome.httpOk⟩ rfl (by decide) (by decide)

/-- C10: when the api batch is delivered successfully but the subsequent
snapshot POST throws, `runOnce` exits by exception before the merged cursor
is written: the advanced api cursor is not persisted and the next
invocation re-selects the already-delivered batch. -/
theorem c10_snapshot_failure_discards_api_cursor (env : SyncEnv)
    (hurl : env.urlSet = true)
    (hne : (selectUnsentApiEvents env.apiEvents env.cursorFile env.batchSize).1 ≠ [])
    (hapi : env.apiPost = PostOutcome.httpOk)
    (hsnap : env.snapshotPost ≠ PostOutcome.httpOk)
    (latest : JObj) (hlast : env.snapshots.getLast? = some latest)
    (hts : strOfField (jLookup latest ("ts".toList)) ≠ [])
    (hdiff : strOfField (jLookup latest ("ts".toList)) ≠ env.cursorFile.snapshot_last_ts) :
    (runOnce env).threw = true ∧
    (runOnce env).cursorFile = env.cursorFile ∧
    selectUnsentApiEvents env.apiEvents (runOnce env).cursorFile env.batchSize =
      selectUnsentApiEvents env.apiEvents env.cursorFile env.batchSize := by
  have hlen :
      (List.map sanitizeApiEvent
        (selectUnsentApiEvents env.apiEvents env.cursorFile env.batchSize).1).length > 0 := by
    rw [List.length_map]
    exact List.length_pos.mpr hne
  have hpostApi : postPayloadResult env.urlSet env.apiPost = Except.ok true := by
    rw [hurl, hapi]
    rfl
  have hpostSnap : postPayloadResult env.urlSet env.snapshotPost = Except.error () := by
    rw [hurl]
    rcases h : env.snapshotPost
    · exact absurd h hsnap
    · rfl
    · rfl
  have hres : runOnce env =
      { threw := true, cursorFile := env.cursorFile,
        apiEventsSent :=
          (List.map sanitizeApiEvent
            (selectUnsentApiEvents env.apiEvents env.cursorFile env.batchSize).1).length,
        snapshotSent := false } := by
    unfold runOnce
    simp only []
    rw [if_pos hlen]
    simp only [hpostApi]
    simp [runOnceSnapshotStep, hlast, hpostSnap, hts, hdiff]
    intro himp
    exact absurd (himp hts) hdiff
  refine ⟨by rw [hres], by rw [hres], by rw [hres]⟩

set_option maxHeartbeats 1000000 in
theorem c10_snapshot_failure_discards_api_cursor_witness :
    (runOnce ⟨true, 200, ⟨0, [], []⟩,
      [[(("ts_ms".toList), JVal.jnum 5), (("dedupe_key".toList), JVal.jstr ("a".toList))]],
      [[(("ts".toList), JVal.jstr ("t1".toList))]],
      PostOutcome.httpOk, PostOutcome.httpErr⟩).threw = true ∧
    (runOnce ⟨true, 200, ⟨0, [], []⟩,
      [[(("ts_ms".toList), JVal.jnum 5), (("dedupe_key".toList), JVal.jstr ("a".toList))]],
      [[(("ts".toList), JVal.jstr ("t1".toList))]],
      PostOutcome.httpOk, PostOutcome.httpErr⟩).cursorFile = ⟨0, [], []⟩ ∧
    selectUnsentApiEvents
      [[(("ts_ms".toList), JVal.jnum 5), (("dedupe_key".toList), JVal.jstr ("a".toList))]]
      (runOnce ⟨true, 200, ⟨0, [], []⟩,
        [[(("ts_ms".toList), JVal.jnum 5), (("dedupe_key".toList), JVal.jstr ("a".toList))]],
        [[(("ts".toList), JVal.jstr ("t1".toList))]],
        PostOutcome.httpOk, PostOutcome.httpErr⟩).cursorFile 200 =
      selectUnsentApiEvents
        [[(("ts_ms".toList), JVal.jnum 5), (("dedupe_key".toList), JVal.jstr ("a".toList))]]
        ⟨0, [], []⟩ 200 :=
  c10_snapshot_failure_discards_api_cursor ⟨true, 200, ⟨0, [], []⟩,
    [[(("ts_ms".toList), JVal.jnum 5), (("dedupe_key".toList), JVal.jstr ("a".toList))]],
    [[(("ts".toList), JVal.jstr ("t1".toList))]],
    PostOutcome.httpOk, PostOutcome.httpErr⟩ rfl (by decide) rfl (by decide)
    [(("ts".toList), JVal.jstr ("t1".toList))] rfl (by decide) (by decide)

lemma normalizeApiFactEvent_some {raw : JObj} {ev : NormApiEvent}
    (h : (normalizeApiFactEvent raw).event = some ev) :
    raw.any (fun p => !(API_EVENT_ALLOWED_FIELDS.contains p.1)) = false ∧
    containsSensitiveApiFactValue ev.path_template = false ∧
    ev.path_template =
      jsToLower (jsTrim (strOfField
        (jLookup (sanitizeApiFactFields raw) ("path_template".toList)))) ∧
    (ev.request_id = [] ∨
      (ev.request_id =
        jsTrim (strOfField (jLookup (sanitizeApiFactFields raw) ("request_id".toList))) ∧
       containsSensitiveApiFactValue ev.request_id = false)) := by
  rw [normalizeApiFactEvent] at h
  simp only [] at h
  split at h
  · simp at h
  · split at h
    · simp at h
    · split at h
      · simp at h
      · split at h
        · simp at h
        · next tsMs htm =>
          split at h
          · simp at h
          · split at h
            · simp at h
            · next hsens =>
              simp only [NormResult.mk.injEq] at h
              rw [Option.some_inj] at h
              subst h
              refine ⟨Bool.eq_false_iff.mpr (by assumption), ?_, rfl, ?_⟩
              · simp only [Bool.or_eq_true, not_or, Bool.not_eq_true] at hsens
                exact hsens.1.2
              · by_cases hrid :
                  jsTrim (strOfField (jLookup (sanitizeApiFactFields raw)
                    ("request_id".toList))) ≠ [] ∧
                  requestIdCharsetOk (jsTrim (strOfField
                    (jLookup (sanitizeApiFactFields raw) ("request_id".toList)))) = true ∧
                  containsSensitiveApiFactValue (jsTrim (strOfField
                    (jLookup (sanitizeApiFactFields raw) ("request_id".toList)))) = false
                · right
                  rw [if_pos hrid]
                  exact ⟨rfl, hrid.2.2⟩
                · left
                  rw [if_neg hrid]

/-- C5 (amended): at normalization (probe.mjs), a record owning any
non-whitelisted field yields no event — the whole record is dropped; at the
outbound sync stage (sync-outbound.mjs), `sanitizeApiEvent` instead keeps
the record and silently projects it onto the whitelist: a field survives
iff it is whitelisted and present. -/
theorem c5_whitelist_strictness_amended :
    (∀ raw : JObj,
      raw.any (fun p => !(API_EVENT_ALLOWED_FIELDS.contains p.1)) = true →
      (normalizeApiFactEvent raw).event = none) ∧
    (∀ (r : JObj) (k : Str) (v : JVal),
      (k, v) ∈ sanitizeApiEvent r ↔
        (k ∈ ALLOWED_API_EVENT_FIELDS ∧ jLookup r k = some v)) := by
  constructor
  · intro raw h
    cases hev : (normalizeApiFactEvent raw).event with
    | none => rfl
    | some ev =>
      rw [(normalizeApiFactEvent_some hev).1] at h
      cases h
  · intro r k v
    simp only [sanitizeApiEvent, pickAllowedFields, List.mem_filterMap,
      Option.map_eq_some']
    constructor
    · rintro ⟨key, hkey, w, hw, heq⟩
      cases heq
      exact ⟨hkey, hw⟩
    · rintro ⟨hk, hv⟩
      exact ⟨k, hk, v, hv, rfl⟩

/-- C8 counterexample: with the exact argv the hook trigger controller
spawns (`--once --out-dir <dir>`), `main` runs the pipeline even though the
lock is alive, and performs no lock check or acquisition — the single-flight
guarantee does not cover the hook-triggered run. -/
theorem c8_trigger_run_bypasses_lock_cex :
    mainTrace (hookPipelineArgv ("/out".toList)) true = [ProbeAction.runPipeline] ∧
    ProbeAction.runPipeline ∈ mainTrace (hookPipelineArgv ("/out".toList)) true ∧
    ProbeAction.acquireLock ∉ mainTrace (hookPipelineArgv ("/out".toList)) true ∧
    ProbeAction.checkLock ∉ mainTrace (hookPipelineArgv ("/out".toList)) true := by
  refine ⟨by decide, by decide, by decide, by decide⟩

theorem computeServiceStatusNow_spec_witness :
    computeServiceStatusNow false (some 5) (some 5) = ("down".toList) ∧
    computeServiceStatusNow true (some 1) (some 0) = ("degraded".toList) ∧
    computeServiceStatusNow true (some 0) none = ("running".toList) :=
  ⟨(computeServiceStatusNow_spec false (some 5) (some 5)).1 rfl,
   (computeServiceStatusNow_spec true (some 1) (some 0)).2.1 rfl (Or.inl ⟨1, rfl, by omega⟩),
   (computeServiceStatusNow_spec true (some 0) none).2.2 rfl
     (fun n h => by cases h; omega) (fun n h => by cases h)⟩

/-- C5 counterexample: a record carrying the non-whitelisted field `ts_ms`
is not dropped by the outbound sanitizer: `sanitizeApiEvent` returns a
non-empty record equal to the input minus that field — partial redaction,
not whole-record invalidation. -/
theorem c5_whitelist_strictness_cex :
    ([(("ts".toList), JVal.jnum 5), (("provider".toList), JVal.jstr ("lark".toList)),
      (("ts_ms".toList), JVal.jnum 5), (("dedupe_key".toList), JVal.jstr ("k".toList))] :
      JObj).any (fun p => !(ALLOWED_API_EVENT_FIELDS.contains p.1)) = true ∧
    sanitizeApiEvent
      [(("ts".toList), JVal.jnum 5), (("provider".toList), JVal.jstr ("lark".toList)),
       (("ts_ms".toList), JVal.jnum 5), (("dedupe_key".toList), JVal.jstr ("k".toList))] =
      [(("ts".toList), JVal.jnum 5), (("provider".toList), JVal.jstr ("lark".toList)),
       (("dedupe_key".toList), JVal.jstr ("k".toList))] ∧
    sanitizeApiEvent
      [(("ts".toList), JVal.jnum 5), (("provider".toList), JVal.jstr ("lark".toList)),
       (("ts_ms".toList), JVal.jnum 5), (("dedupe_key".toList), JVal.jstr ("k".toList))] ≠
      [] := by
  refine ⟨by decide, by decide, by decide⟩

set_option maxHeartbeats 1000000 in
theorem c5_whitelist_strictness_amended_witness :
    (normalizeApiFactEvent
      [(("ts".toList), JVal.jnum 2000000000000),
       (("provider".toList), JVal.jstr ("l".toList)),
       (("evil_field".toList), JVal.jstr ("x".toList))]).event = none ∧
    ((("ts".toList, JVal.jnum 5) :
        Str × JVal) ∈ sanitizeApiEvent
        [(("ts".toList), JVal.jnum 5), (("ts_ms".toList), JVal.jnum 5)] ↔
      (("ts".toList) ∈ ALLOWED_API_EVENT_FIELDS ∧
        jLookup [(("ts".toList), JVal.jnum 5), (("ts_ms".toList), JVal.jnum 5)]
          ("ts".toList) = some (JVal.jnum 5))) :=
  ⟨c5_whitelist_strictness_amended.1
    [(("ts".toList), JVal.jnum 2000000000000),
     (("provider".toList), JVal.jstr ("l".toList)),
     (("evil_field".toList), JVal.jstr ("x".toList))] (by decide),
   c5_whitelist_strictness_amended.2
    [(("ts".toList), JVal.jnum 5), (("ts_ms".toList), JVal.jnum 5)]
    ("ts".toList) (JVal.jnum 5)⟩

/-- C4: over an empty raw-fact store the API metrics report `null` (Gap):
`api_metrics_available = false`, every windowed metric is `none`, and the
collection mode is the not-connected marker; over a non-empty store with a
positive trailing-24h total and zero failures the error rate is exactly `0`
with `api_metrics_available = true` (Derived). -/
theorem c4_gap_vs_zero :
    (∀ (nowMs tokyoStartMs tokyoEndMs : Int) (f1 f2 : Bool),
      (collectApiMetrics [] nowMs f1 f2 tokyoStartMs tokyoEndMs).api_metrics_available
          = false ∧
      (collectApiMetrics [] nowMs f1 f2 tokyoStartMs tokyoEndMs).api_error_rate_24h = none ∧
      (collectApiMetrics [] nowMs f1 f2 tokyoStartMs tokyoEndMs).api_call_total_24h = none ∧
      (collectApiMetrics [] nowMs f1 f2 tokyoStartMs tokyoEndMs).api_429_ratio_24h = none ∧
      (collectApiMetrics [] nowMs f1 f2 tokyoStartMs tokyoEndMs).api_unknown_rate_24h
          = none ∧
      (collectApiMetrics [] nowMs f1 f2 tokyoStartMs
        tokyoEndMs).endpoint_group_top5_calls_24h = none ∧
      (collectApiMetrics [] nowMs f1 f2 tokyoStartMs tokyoEndMs).api_collection_mode =
        ("fact-only-not-connected".toList)) ∧
    (∀ (rawFacts : List JObj) (nowMs tokyoStartMs tokyoEndMs : Int) (f1 f2 : Bool)
        (t : Nat),
      rawFacts ≠ [] →
      (collectApiMetrics rawFacts nowMs f1 f2 tokyoStartMs
        tokyoEndMs).api_call_total_24h = some t →
      0 < t →
      (collectApiMetrics rawFacts nowMs f1 f2 tokyoStartMs
        tokyoEndMs).api_failure_total_24h = some 0 →
      (collectApiMetrics rawFacts nowMs f1 f2 tokyoStartMs
        tokyoEndMs).api_error_rate_24h = some 0 ∧
      (collectApiMetrics rawFacts nowMs f1 f2 tokyoStartMs
        tokyoEndMs).api_metrics_available = true ∧
      (collectApiMetrics rawFacts nowMs f1 f2 tokyoStartMs
        tokyoEndMs).api_collection_mode = ("fact-event-structured".toList)) := by
  constructor
  · intro nowMs tokyoStartMs tokyoEndMs f1 f2
    exact ⟨rfl, rfl, rfl, rfl, rfl, rfl, rfl⟩
  · intro rawFacts nowMs tokS tokE f1 f2 t hne htot hpos hfail
    have hconn : (loadApiFactEvents rawFacts nowMs f1 f2).sourceConnected = true := by
      simp only [loadApiFactEvents]
      simp
      exact List.length_pos.mpr hne
    unfold collectApiMetrics at htot hfail ⊢
    simp only [computeApiMetricsFromFactEvents, hconn] at htot hfail ⊢
    simp only [if_true, Option.some_inj] at htot hfail
    refine ⟨?_, ?_, ?_⟩
    · rw [if_pos ⟨trivial, by omega⟩, hfail]
      simp
    · trivial
    · trivial

set_option maxHeartbeats 2000000 in
set_option maxRecDepth 4000 in
theorem c4_gap_vs_zero_witness :
    (collectApiMetrics [] 0 false false 0 0).api_error_rate_24h = none ∧
    (collectApiMetrics
      [[(("ts".toList), JVal.jnum 2000000000000),
        (("provider".toList), JVal.jstr ("l".toList)),
        (("method".toList), JVal.jstr ("g".toList)),
        (("host".toList), JVal.jstr ("h".toList)),
        (("path_template".toList), JVal.jstr ("/p".toList)),
        (("endpoint_group".toList), JVal.jstr ("g".toList)),
        (("status_code".toList), JVal.jnum 200),
        (("dedupe_key".toList), JVal.jstr ("k".toList))]]
      2000000000000 true true 0 0).api_error_rate_24h = some 0 ∧
    (collectApiMetrics
      [[(("ts".toList), JVal.jnum 2000000000000),
        (("provider".toList), JVal.jstr ("l".toList)),
        (("method".toList), JVal.jstr ("g".toList)),
        (("host".toList), JVal.jstr ("h".toList)),
        (("path_template".toList), JVal.jstr ("/p".toList)),
        (("endpoint_group".toList), JVal.jstr ("g".toList)),
        (("status_code".toList), JVal.jnum 200),
        (("dedupe_key".toList), JVal.jstr ("k".toList))]]
      2000000000000 true true 0 0).api_metrics_available = true :=
  ⟨(c4_gap_vs_zero.1 0 0 0 false false).2.1,
   ((c4_gap_vs_zero.2
      [[(("ts".toList), JVal.jnum 2000000000000),
        (("provider".toList), JVal.jstr ("l".toList)),
        (("method".toList), JVal.jstr ("g".toList)),
        (("host".toList), JVal.jstr ("h".toList)),
        (("path_template".toList), JVal.jstr ("/p".toList)),
        (("endpoint_group".toList), JVal.jstr ("g".toList)),
        (("status_code".toList), JVal.jnum 200),
        (("dedupe_key".toList), JVal.jstr ("k".toList))]]
      2000000000000 0 0 true true 1 (by decide) (by decide) (by decide)
      (by decide))).1,
   ((c4_gap_vs_zero.2
      [[(("ts".toList), JVal.jnum 2000000000000),
        (("provider".toList), JVal.jstr ("l".toList)),
        (("method".toList), JVal.jstr ("g".toList)),
        (("host".toList), JVal.jstr ("h".toList)),
        (("path_template".toList), JVal.jstr ("/p".toList)),
        (("endpoint_group".toList), JVal.jstr ("g".toList)),
        (("status_code".toList), JVal.jnum 200),
        (("dedupe_key".toList), JVal.jstr ("k".toList))]]
      2000000000000 0 0 true true 1 (by decide) (by decide) (by decide)
      (by decide))).2.1⟩

lemma space_not_word {c : Char} (h : isJsSpace c = true) : isWordChar c = false := by
  simp only [isJsSpace, decide_eq_true_eq] at h
  simp only [isWordChar, decide_eq_false_iff_not]
  omega

lemma emailLocal_not_space {c : Char} (h : isEmailLocalChar c = true) :
    isJsSpace c = false := by
  simp only [isEmailLocalChar, isAsciiAlpha, isAsciiDigit, Bool.or_eq_true,
    decide_eq_true_eq] at h
  simp only [isJsSpace, decide_eq_false_iff_not]
  omega

lemma asciiAlpha_not_space {c : Char} (h : isAsciiAlpha c = true) :
    isJsSpace c = false := by
  simp only [isAsciiAlpha, Bool.or_eq_true, decide_eq_true_eq] at h
  simp only [isJsSpace, decide_eq_false_iff_not]
  omega

lemma tokenChar_not_space {c : Char} (h : isTokenChar c = true) :
    isJsSpace c = false := by
  simp only [isTokenChar, isAsciiAlpha, isAsciiDigit, Bool.or_eq_true,
    decide_eq_true_eq] at h
  simp only [isJsSpace, decide_eq_false_iff_not]
  omega

lemma jsCharToLower_toNat_of_upper {c : Char} (h1 : 65 ≤ c.toNat) (h2 : c.toNat ≤ 90) :
    (jsCharToLower c).toNat = c.toNat + 32 := by
  rw [jsCharToLower, if_pos ⟨h1, h2⟩]
  generalize hn : c.toNat = n at h1 h2
  interval_cases n <;> decide

lemma jsCharToLower_eq_of_not_upper {c : Char} (h : ¬(65 ≤ c.toNat ∧ c.toNat ≤ 90)) :
    jsCharToLower c = c := by
  rw [jsCharToLower, if_neg h]

lemma isWordChar_jsCharToLower (c : Char) :
    isWordChar (jsCharToLower c) = isWordChar c := by
  by_cases h : 65 ≤ c.toNat ∧ c.toNat ≤ 90
  · have := jsCharToLower_toNat_of_upper h.1 h.2
    simp only [isWordChar]
    rw [decide_eq_decide]
    omega
  · rw [jsCharToLower_eq_of_not_upper h]

lemma isEmailLocalChar_jsCharToLower {c : Char} (h : isEmailLocalChar c = true) :
    isEmailLocalChar (jsCharToLower c) = true := by
  by_cases hu : 65 ≤ c.toNat ∧ c.toNat ≤ 90
  · have := jsCharToLower_toNat_of_upper hu.1 hu.2
    simp only [isEmailLocalChar, isAsciiAlpha, isAsciiDigit, Bool.or_eq_true,
      decide_eq_true_eq] at h ⊢
    omega
  · rw [jsCharToLower_eq_of_not_upper hu]
    exact h

lemma isEmailDomainChar_jsCharToLower {c : Char} (h : isEmailDomainChar c = true) :
    isEmailDomainChar (jsCharToLower c) = true := by
  by_cases hu : 65 ≤ c.toNat ∧ c.toNat ≤ 90
  · have := jsCharToLower_toNat_of_upper hu.1 hu.2
    simp only [isEmailDomainChar, isAsciiAlpha, isAsciiDigit, Bool.or_eq_true,
      decide_eq_true_eq] at h ⊢
    omega
  · rw [jsCharToLower_eq_of_not_upper hu]
    exact h

lemma isAsciiAlpha_jsCharToLower {c : Char} (h : isAsciiAlpha c = true) :
    isAsciiAlpha (jsCharToLower c) = true := by
  by_cases hu : 65 ≤ c.toNat ∧ c.toNat ≤ 90
  · have := jsCharToLower_toNat_of_upper hu.1 hu.2
    simp only [isAsciiAlpha, Bool.or_eq_true, decide_eq_true_eq] at h ⊢
    omega
  · rw [jsCharToLower_eq_of_not_upper hu]
    exact h

lemma isJsSpace_jsCharToLower (c : Char) : isJsSpace (jsCharToLower c) = isJsSpace c := by
  by_cases hu : 65 ≤ c.toNat ∧ c.toNat ≤ 90
  · have := jsCharToLower_toNat_of_upper hu.1 hu.2
    simp only [isJsSpace]
    rw [decide_eq_decide]
    omega
  · rw [jsCharToLower_eq_of_not_upper hu]

lemma jsCharToLower_at : jsCharToLower '@' = '@' := by decide

lemma jsCharToLower_dot : jsCharToLower '.' = '.' := by decide

lemma dropWhile_getLast?_wOpt (l : List Char) :
    wOpt (l.dropWhile isJsSpace).getLast? = wOpt l.getLast? := by
  by_cases h : l.dropWhile isJsSpace = []
  · rw [h]
    have hall : ∀ c ∈ l, isJsSpace c = true := by
      intro c hc
      exact List.dropWhile_eq_nil_iff.mp h c hc
    cases hl : l.getLast? with
    | none => rfl
    | some c =>
      have hc : c ∈ l := List.mem_of_getLast?_eq_some hl
      simp [wOpt, space_not_word (hall c hc)]
  · conv_rhs => rw [← List.takeWhile_append_dropWhile isJsSpace l]
    rw [List.getLast?_append]
    cases hg : (l.dropWhile isJsSpace).getLast? with
    | none => exact absurd (List.getLast?_eq_none_iff.mp hg) h
    | some c => simp [hg]

lemma trimLeft_decomp (pre core post : Str) (hc : core ≠ [])
    (hh : ∀ c, core.head? = some c → isJsSpace c = false) :
    trimLeft (pre ++ core ++ post) = trimLeft pre ++ core ++ post := by
  obtain ⟨x, xs, rfl⟩ := List.exists_cons_of_ne_nil hc
  have hx : isJsSpace x = false := hh x rfl
  simp only [trimLeft, List.append_assoc, List.dropWhile_append]
  split
  · next hemp =>
    rw [List.isEmpty_iff] at hemp
    rw [hemp]
    simp [List.dropWhile_cons, hx]
  · rfl

lemma trimRight_decomp (pre core post : Str) (hc : core ≠ [])
    (hl : ∀ c, core.getLast? = some c → isJsSpace c = false) :
    trimRight (pre ++ core ++ post) = pre ++ core ++ trimRight post := by
  have hrev : core.reverse ≠ [] := by simpa using hc
  have hrevh : ∀ c, core.reverse.head? = some c → isJsSpace c = false := by
    intro c h
    exact hl c (by rwa [List.head?_reverse] at h)
  have := trimLeft_decomp post.reverse core.reverse pre.reverse hrev hrevh
  simp only [trimLeft, List.append_assoc] at this
  simp only [trimRight, List.reverse_append, List.append_assoc]
  rw [this]
  simp [List.reverse_append]

lemma trimRight_head?_wOpt (post : Str) :
    wOpt (trimRight post).head? = wOpt post.head? := by
  have : (trimRight post).head? = (post.reverse.dropWhile isJsSpace).getLast? := by
    simp [trimRight, List.head?_reverse]
  rw [this]
  rw [show post.head? = post.reverse.getLast? by rw [List.getLast?_reverse]]
  exact dropWhile_getLast?_wOpt post.reverse

lemma jsTrim_decomp (pre core post : Str) (hc : core ≠ [])
    (hh : ∀ c, core.head? = some c → isJsSpace c = false)
    (hl : ∀ c, core.getLast? = some c → isJsSpace c = false) :
    jsTrim (pre ++ core ++ post) = trimLeft pre ++ core ++ trimRight post ∧
    wOpt (trimLeft pre).getLast? = wOpt pre.getLast? ∧
    wOpt (trimRight post).head? = wOpt post.head? := by
  refine ⟨?_, dropWhile_getLast?_wOpt pre, trimRight_head?_wOpt post⟩
  rw [jsTrim, trimLeft_decomp pre core post hc hh,
    trimRight_decomp (trimLeft pre) core post hc hl]

lemma head?_append_left {a b : Str} (h : a ≠ []) : (a ++ b).head? = a.head? := by
  cases a with
  | nil => exact absurd rfl h
  | cons x xs => rfl

lemma getLast?_append_left {a b : Str} (h : b ≠ []) : (a ++ b).getLast? = b.getLast? := by
  rw [List.getLast?_append]
  cases hb : b.getLast? with
  | none => exact absurd (List.getLast?_eq_none_iff.mp hb) h
  | some c => rfl

lemma tld_ne_nil {tld : Str} (h : 2 ≤ tld.length) : tld ≠ [] := by
  intro hn
  rw [hn] at h
  simp at h

lemma EmailDecomp_jsTrim {s : Str} (h : EmailDecomp s) : EmailDecomp (jsTrim s) := by
  obtain ⟨pre, loc, dom, tld, post, hs, hloc, hlocC, hdom, hdomC, htld, htldC, hb1, hb2⟩ := h
  have htldne : tld ≠ [] := tld_ne_nil htld
  have hcne : (loc ++ ['@'] ++ dom ++ ['.'] ++ tld : Str) ≠ [] := by simp
  have hchead : (loc ++ ['@'] ++ dom ++ ['.'] ++ tld : Str).head? = loc.head? := by
    rw [head?_append_left (by simp [hloc]), head?_append_left (by simp [hloc]),
      head?_append_left (by simp [hloc]), head?_append_left hloc]
  have hclast : (loc ++ ['@'] ++ dom ++ ['.'] ++ tld : Str).getLast? = tld.getLast? :=
    getLast?_append_left htldne
  have hh : ∀ c, (loc ++ ['@'] ++ dom ++ ['.'] ++ tld : Str).head? = some c →
      isJsSpace c = false := by
    intro c hc
    rw [hchead] at hc
    exact emailLocal_not_space (hlocC c (List.mem_of_mem_head? (by rw [hc]; rfl)))
  have hl : ∀ c, (loc ++ ['@'] ++ dom ++ ['.'] ++ tld : Str).getLast? = some c →
      isJsSpace c = false := by
    intro c hc
    rw [hclast] at hc
    exact asciiAlpha_not_space (htldC c (List.mem_of_getLast?_eq_some hc))
  have hs' : s = pre ++ (loc ++ ['@'] ++ dom ++ ['.'] ++ tld) ++ post := by
    rw [hs]
    simp [List.append_assoc]
  have hsplit := jsTrim_decomp pre (loc ++ ['@'] ++ dom ++ ['.'] ++ tld) post hcne hh hl
  refine ⟨trimLeft pre, loc, dom, tld, trimRight post, ?_, hloc, hlocC, hdom, hdomC,
    htld, htldC, ?_, ?_⟩
  · rw [hs', hsplit.1]
    simp [List.append_assoc]
  · rw [hsplit.2.1]
    exact hb1
  · rw [hsplit.2.2]
    exact hb2

lemma bw_ne_nil {bw : Str} (h : jsToLower bw = ("bearer".toList)) : bw ≠ [] := by
  intro hn
  rw [hn] at h
  simp [jsToLower] at h

lemma tok_ne_nil {tok : Str} (h : 8 ≤ tok.length) : tok ≠ [] := by
  intro hn
  rw [hn] at h
  simp at h

lemma bw_head_not_space {bw : Str} (h : jsToLower bw = ("bearer".toList)) :
    ∀ c, bw.head? = some c → isJsSpace c = false := by
  intro c hc
  by_contra hsp
  rw [Bool.not_eq_false] at hsp
  have hup : ¬(65 ≤ c.toNat ∧ c.toNat ≤ 90) := by
    simp only [isJsSpace, decide_eq_true_eq] at hsp
    omega
  have hmap : (jsToLower bw).head? = some (jsCharToLower c) := by
    rw [jsToLower, List.head?_map, hc]
    rfl
  rw [h] at hmap
  rw [jsCharToLower_eq_of_not_upper hup] at hmap
  have : c = 'b' := by
    simpa using hmap.symm
  subst this
  simp [isJsSpace] at hsp

lemma BearerDecomp_jsTrim {s : Str} (h : BearerDecomp s) : BearerDecomp (jsTrim s) := by
  obtain ⟨pre, bw, sp, tok, post, hs, hbw, hsp, hspC, htok, htokC, hb1⟩ := h
  have hbwne : bw ≠ [] := bw_ne_nil hbw
  have htokne : tok ≠ [] := tok_ne_nil htok
  have hcne : (bw ++ sp ++ tok : Str) ≠ [] := by simp [hbwne]
  have hchead : (bw ++ sp ++ tok : Str).head? = bw.head? := by
    rw [head?_append_left (by simp [hbwne]), head?_append_left hbwne]
  have hclast : (bw ++ sp ++ tok : Str).getLast? = tok.getLast? :=
    getLast?_append_left htokne
  have hh : ∀ c, (bw ++ sp ++ tok : Str).head? = some c → isJsSpace c = false := by
    intro c hc
    rw [hchead] at hc
    exact bw_head_not_space hbw c hc
  have hl : ∀ c, (bw ++ sp ++ tok : Str).getLast? = some c → isJsSpace c = false := by
    intro c hc
    rw [hclast] at hc
    exact tokenChar_not_space (htokC c (List.mem_of_getLast?_eq_some hc))
  have hs' : s = pre ++ (bw ++ sp ++ tok) ++ post := by
    rw [hs]
    simp [List.append_assoc]
  have hsplit := jsTrim_decomp pre (bw ++ sp ++ tok) post hcne hh hl
  refine ⟨trimLeft pre, bw, sp, tok, trimRight post, ?_, hbw, hsp, hspC, htok, htokC, ?_⟩
  · rw [hs', hsplit.1]
    simp [List.append_assoc]
  · rw [hsplit.2.1]
    exact hb1

lemma wOpt_map_toLower (o : Option Char) :
    wOpt (o.map jsCharToLower) = wOpt o := by
  cases o with
  | none => rfl
  | some c => simp [wOpt, isWordChar_jsCharToLower]

lemma EmailDecomp_jsToLower {s : Str} (h : EmailDecomp s) : EmailDecomp (jsToLower s) := by
  obtain ⟨pre, loc, dom, tld, post, hs, hloc, hlocC, hdom, hdomC, htld, htldC, hb1, hb2⟩ := h
  refine ⟨jsToLower pre, jsToLower loc, jsToLower dom, jsToLower tld, jsToLower post,
    ?_, ?_, ?_, ?_, ?_, ?_, ?_, ?_, ?_⟩
  · rw [hs]
    simp [jsToLower, jsCharToLower_at, jsCharToLower_dot]
  · simp [jsToLower, hloc]
  · intro c hc
    rw [jsToLower, List.mem_map] at hc
    obtain ⟨x, hx, rfl⟩ := hc
    exact isEmailLocalChar_jsCharToLower (hlocC x hx)
  · simp [jsToLower, hdom]
  · intro c hc
    rw [jsToLower, List.mem_map] at hc
    obtain ⟨x, hx, rfl⟩ := hc
    exact isEmailDomainChar_jsCharToLower (hdomC x hx)
  · simpa [jsToLower] using htld
  · intro c hc
    rw [jsToLower, List.mem_map] at hc
    obtain ⟨x, hx, rfl⟩ := hc
    exact isAsciiAlpha_jsCharToLower (htldC x hx)
  · rw [jsToLower, jsToLower, List.getLast?_map, List.head?_map, wOpt_map_toLower,
      wOpt_map_toLower]
    exact hb1
  · rw [jsToLower, jsToLower, List.getLast?_map, List.head?_map, wOpt_map_toLower,
      wOpt_map_toLower]
    exact hb2

lemma charAt?_append_right (a b : Str) (t : Nat) :
    charAt? (a ++ b) (a.length + t) = charAt? b t := by
  simp [charAt?, List.drop_append]

lemma charAt?_append_self (a b : Str) : charAt? (a ++ b) a.length = b.head? := by
  have := charAt?_append_right a b 0
  rw [Nat.add_zero] at this
  rw [this]
  rfl

lemma charAt?_cons_succ (c : Char) (b : Str) (t : Nat) :
    charAt? (c :: b) (t + 1) = charAt? b t := rfl

lemma slice_append_right (a b : Str) (i j : Nat) :
    slice (a ++ b) (a.length + i) (a.length + j) = slice b i j := by
  simp only [slice, List.drop_append]
  congr 1
  omega

lemma slice_zero (b : Str) (j : Nat) : slice b 0 j = b.take j := by
  simp [slice]

lemma slice_cons_succ (c : Char) (b : Str) (i j : Nat) :
    slice (c :: b) (i + 1) (j + 1) = slice b i j := by
  simp only [slice, List.drop_succ_cons]
  congr 1
  omega

lemma prevAt?_append (pre B : Str) : prevAt? (pre ++ B) pre.length = pre.getLast? := by
  rcases List.eq_nil_or_concat pre with rfl | ⟨q, c, rfl⟩
  · rfl
  · simp only [List.concat_eq_append]
    rw [prevAt?, if_neg (by simp)]
    rw [List.getLast?_concat]
    have h1 : (q ++ [c]).length - 1 = q.length := by simp
    rw [h1, List.append_assoc, charAt?_append_self]
    rfl

lemma charAt?_append_pred (a b : Str) (h : a ≠ []) :
    charAt? (a ++ b) (a.length - 1) = a.getLast? := by
  rcases List.eq_nil_or_concat a with rfl | ⟨q, c, rfl⟩
  · exact absurd rfl h
  · simp only [List.concat_eq_append]
    have h1 : (q ++ [c]).length - 1 = q.length := by simp
    rw [h1, List.append_assoc, charAt?_append_self, List.getLast?_concat]
    rfl

lemma slice_append_self (a b : Str) (j : Nat) :
    slice (a ++ b) a.length (a.length + j) = b.take j := by
  have := slice_append_right a b 0 j
  rw [Nat.add_zero] at this
  rw [this, slice_zero]

lemma EmailDecomp_idx {s : Str} (h : EmailDecomp s) : EmailIdx s := by
  obtain ⟨pre, loc, dom, tld, post, hs, hloc, hlocC, hdom, hdomC, htld, htldC, hb1, hb2⟩ := h
  subst hs
  have htldne : tld ≠ [] := tld_ne_nil htld
  have hlocpos : 0 < loc.length := List.length_pos.mpr hloc
  have hdompos : 0 < dom.length := List.length_pos.mpr hdom
  have hre1 : (pre ++ loc ++ ['@'] ++ dom ++ ['.'] ++ tld ++ post : Str) =
      (pre ++ loc) ++ ('@' :: (dom ++ ['.'] ++ tld ++ post)) := by simp
  have hre2 : (pre ++ loc ++ ['@'] ++ dom ++ ['.'] ++ tld ++ post : Str) =
      pre ++ (loc ++ ['@'] ++ dom ++ ['.'] ++ tld ++ post) := by simp
  have hre3 : (pre ++ loc ++ ['@'] ++ dom ++ ['.'] ++ tld ++ post : Str) =
      (pre ++ loc ++ ['@']) ++ (dom ++ ['.'] ++ tld ++ post) := by simp
  have hre4 : (pre ++ loc ++ ['@'] ++ dom ++ ['.'] ++ tld ++ post : Str) =
      (pre ++ loc ++ ['@'] ++ dom) ++ ('.' :: (tld ++ post)) := by simp
  have hre5 : (pre ++ loc ++ ['@'] ++ dom ++ ['.'] ++ tld ++ post : Str) =
      (pre ++ loc ++ ['@'] ++ dom ++ ['.']) ++ (tld ++ post) := by simp
  have e1 : charAt? (pre ++ loc ++ ['@'] ++ dom ++ ['.'] ++ tld ++ post)
      (pre.length + loc.length) = some '@' := by
    rw [hre1, (by simp : pre.length + loc.length = (pre ++ loc).length),
      charAt?_append_self]
    rfl
  have e2 : slice (pre ++ loc ++ ['@'] ++ dom ++ ['.'] ++ tld ++ post)
      pre.length (pre.length + loc.length) = loc := by
    rw [hre2, slice_append_self]
    rw [(by simp : (loc ++ ['@'] ++ dom ++ ['.'] ++ tld ++ post : Str) =
      loc ++ (['@'] ++ dom ++ ['.'] ++ tld ++ post)), List.take_left]
  have e3a : prevAt? (pre ++ loc ++ ['@'] ++ dom ++ ['.'] ++ tld ++ post)
      pre.length = pre.getLast? := by
    rw [hre2]
    exact prevAt?_append pre _
  have e3b : charAt? (pre ++ loc ++ ['@'] ++ dom ++ ['.'] ++ tld ++ post)
      pre.length = loc.head? := by
    rw [hre2, charAt?_append_self]
    rw [(by simp : (loc ++ ['@'] ++ dom ++ ['.'] ++ tld ++ post : Str) =
      loc ++ (['@'] ++ dom ++ ['.'] ++ tld ++ post)), head?_append_left hloc]
  have e4 : charAt? (pre ++ loc ++ ['@'] ++ dom ++ ['.'] ++ tld ++ post)
      (pre.length + loc.length + 1 + dom.length) = some '.' := by
    rw [hre4, (by simp; omega : pre.length + loc.length + 1 + dom.length =
      (pre ++ loc ++ ['@'] ++ dom).length), charAt?_append_self]
    rfl
  have e5 : slice (pre ++ loc ++ ['@'] ++ dom ++ ['.'] ++ tld ++ post)
      (pre.length + loc.length + 1) (pre.length + loc.length + 1 + dom.length) = dom := by
    rw [hre3, (by simp; omega : pre.length + loc.length + 1 =
      (pre ++ loc ++ ['@']).length)]
    rw [slice_append_self]
    rw [(by simp : (dom ++ ['.'] ++ tld ++ post : Str) =
      dom ++ (['.'] ++ tld ++ post)), List.take_left]
  have e6 : slice (pre ++ loc ++ ['@'] ++ dom ++ ['.'] ++ tld ++ post)
      (pre.length + loc.length + 1 + dom.length + 1)
      (pre.length + loc.length + 1 + dom.length + 1 + tld.length) = tld := by
    rw [hre5, (by simp; omega : pre.length + loc.length + 1 + dom.length + 1 =
      (pre ++ loc ++ ['@'] ++ dom ++ ['.']).length)]
    rw [slice_append_self, List.take_left]
  have e7 : charAt? (pre ++ loc ++ ['@'] ++ dom ++ ['.'] ++ tld ++ post)
      (pre.length + loc.length + 1 + dom.length + 1 + tld.length - 1) =
      tld.getLast? := by
    rw [hre5, (by simp; omega :
      pre.length + loc.length + 1 + dom.length + 1 + tld.length - 1 =
      (pre ++ loc ++ ['@'] ++ dom ++ ['.']).length + (tld.length - 1)),
      charAt?_append_right]
    exact charAt?_append_pred tld post htldne
  have e8 : charAt? (pre ++ loc ++ ['@'] ++ dom ++ ['.'] ++ tld ++ post)
      (pre.length + loc.length + 1 + dom.length + 1 + tld.length) = post.head? := by
    rw [hre5, (by simp; omega :
      pre.length + loc.length + 1 + dom.length + 1 + tld.length =
      (pre ++ loc ++ ['@'] ++ dom ++ ['.']).length + tld.length),
      charAt?_append_right, charAt?_append_self]
  have hn : (pre ++ loc ++ ['@'] ++ dom ++ ['.'] ++ tld ++ post).length =
      pre.length + loc.length + 1 + dom.length + 1 + tld.length + post.length := by
    simp
    omega
  refine ⟨pre.length + loc.length, List.mem_range.mpr (by omega), e1,
    ⟨pre.length, List.mem_range.mpr (by omega), by omega,
      by rw [e2]; exact hlocC, by rw [e3a, e3b]; exact hb1⟩,
    ⟨pre.length + loc.length + 1 + dom.length, List.mem_range.mpr (by omega),
      by omega, e4, by rw [e5]; exact hdomC,
      ⟨pre.length + loc.length + 1 + dom.length + 1 + tld.length,
        List.mem_range.mpr (by omega), by omega, by omega,
        by rw [e6]; exact htldC, by rw [e7, e8]; exact hb2⟩⟩⟩

lemma BearerDecomp_idx {s : Str} (h : BearerDecomp s) : BearerIdx s := by
  obtain ⟨pre, bw, sp, tok, post, hs, hbw, hsp, hspC, htok, htokC, hb⟩ := h
  subst hs
  have hbwlen : bw.length = 6 := by
    have := congrArg List.length hbw
    simpa [jsToLower] using this
  have hbwne : bw ≠ [] := bw_ne_nil hbw
  have hre1 : (pre ++ bw ++ sp ++ tok ++ post : Str) =
      pre ++ (bw ++ sp ++ tok ++ post) := by simp
  have hre2 : (pre ++ bw ++ sp ++ tok ++ post : Str) =
      (pre ++ bw) ++ (sp ++ tok ++ post) := by simp
  have hre3 : (pre ++ bw ++ sp ++ tok ++ post : Str) =
      (pre ++ bw ++ sp) ++ (tok ++ post) := by simp
  have e1 : slice (pre ++ bw ++ sp ++ tok ++ post) pre.length (pre.length + 6) = bw := by
    rw [hre1, slice_append_self]
    rw [(by simp : (bw ++ sp ++ tok ++ post : Str) = bw ++ (sp ++ tok ++ post))]
    rw [← hbwlen, List.take_left]
  have e2 : prevAt? (pre ++ bw ++ sp ++ tok ++ post) pre.length = pre.getLast? := by
    rw [hre1]
    exact prevAt?_append pre _
  have e3 : charAt? (pre ++ bw ++ sp ++ tok ++ post) pre.length = bw.head? := by
    rw [hre1, charAt?_append_self]
    rw [(by simp : (bw ++ sp ++ tok ++ post : Str) = bw ++ (sp ++ tok ++ post))]
    exact head?_append_left hbwne
  have e4 : slice (pre ++ bw ++ sp ++ tok ++ post)
      (pre.length + 6) (pre.length + 6 + sp.length) = sp := by
    rw [hre2, (by simp [hbwlen] : pre.length + 6 = (pre ++ bw).length),
      slice_append_self]
    rw [(by simp : (sp ++ tok ++ post : Str) = sp ++ (tok ++ post)), List.take_left]
  have e5 : slice (pre ++ bw ++ sp ++ tok ++ post)
      (pre.length + 6 + sp.length) (pre.length + 6 + sp.length + 8) = tok.take 8 := by
    rw [hre3, (by simp [hbwlen]; omega : pre.length + 6 + sp.length =
      (pre ++ bw ++ sp).length), slice_append_self]
    rw [List.take_append_of_le_length (by omega)]
  have hn : (pre ++ bw ++ sp ++ tok ++ post).length =
      pre.length + 6 + sp.length + tok.length + post.length := by
    simp [hbwlen]
    omega
  refine ⟨pre.length, List.mem_range.mpr (by omega),
    ⟨by rw [e1]; exact hbw, by omega, by rw [e2, e3]; exact hb⟩,
    ⟨sp.length, List.mem_range.mpr (by omega),
      List.length_pos.mpr hsp, ?_, by omega, ?_⟩⟩
  · rw [e4]
    exact hspC
  · rw [e5]
    intro c hc
    exact htokC c (List.mem_of_mem_take hc)

lemma jLookup_pickAllowedFields_none (raw : JObj) (allowed : List Str) (k : Str)
    (h : jLookup raw k = none) :
    jLookup (pickAllowedFields raw allowed) k = none := by
  induction allowed with
  | nil => rfl
  | cons a rest ih =>
    rw [pickAllowedFields, List.filterMap_cons]
    rcases hja : jLookup raw a with _ | v
    · exact ih
    · by_cases hak : a = k
      · rw [hak] at hja
        rw [hja] at h
        exact absurd h (by simp)
      · simp only [Option.map_some']
        rw [jLookup, List.find?]
        simp only [hak, decide_False]
        exact ih

lemma jLookup_pickAllowedFields (raw : JObj) (allowed : List Str) (k : Str)
    (hk : k ∈ allowed) :
    jLookup (pickAllowedFields raw allowed) k = jLookup raw k := by
  induction allowed with
  | nil => exact absurd hk (by simp)
  | cons a rest ih =>
    rw [pickAllowedFields, List.filterMap_cons]
    rcases hja : jLookup raw a with _ | v
    · by_cases hak : a = k
      · rw [hak] at hja
        rw [hja]
        exact jLookup_pickAllowedFields_none raw rest k hja
      · rcases List.mem_cons.mp hk with he | hm
        · exact absurd he.symm hak
        · exact ih hm
    · simp only [Option.map_some']
      by_cases hak : a = k
      · rw [jLookup, List.find?]
        simp only [hak, decide_True]
        rw [hak] at hja
        rw [hja]
        rfl
      · rw [jLookup, List.find?]
        simp only [hak, decide_False]
        rcases List.mem_cons.mp hk with he | hm
        · exact absurd he.symm hak
        · exact ih hm

lemma EmailDecomp_ne_nil {s : Str} (h : EmailDecomp s) : s ≠ [] := by
  obtain ⟨pre, loc, dom, tld, post, hs, -⟩ := h
  intro hn
  rw [hn] at hs
  have := congrArg List.length hs
  simp at this
  omega

lemma BearerDecomp_ne_nil {s : Str} (h : BearerDecomp s) : s ≠ [] := by
  obtain ⟨pre, bw, sp, tok, post, hs, hbw, -⟩ := h
  intro hn
  rw [hn] at hs
  have hb := bw_ne_nil hbw
  have := congrArg List.length hs
  simp at this
  exact hb (List.length_eq_zero.mp (by omega))

lemma EmailDecomp_sensitive {s : Str} (h : EmailDecomp s) :
    containsSensitiveApiFactValue s = true := by
  have ht : jsTrim s ≠ [] := by
    intro hn
    exact EmailDecomp_ne_nil (EmailDecomp_jsTrim h) hn
  rw [containsSensitiveApiFactValue, if_neg ht]
  rw [decide_eq_true (EmailDecomp_idx h)]
  simp

lemma BearerDecomp_sensitive {s : Str} (h : BearerDecomp s) :
    containsSensitiveApiFactValue s = true := by
  have ht : jsTrim s ≠ [] := by
    intro hn
    exact BearerDecomp_ne_nil (BearerDecomp_jsTrim h) hn
  rw [containsSensitiveApiFactValue, if_neg ht]
  rw [decide_eq_true (BearerDecomp_idx h)]
  simp

/-- C6: normalization rejects sensitive values before they can reach the
retained event store: if the raw fact's `path_template` string contains an
email-address-shaped substring the normalizer returns no event at all, and
if its `request_id` contains a bearer-token-shaped substring then whatever
event the normalizer produces carries an empty `request_id`. -/
theorem c6_sensitive_values_rejected (raw : JObj) :
    (EmailDecomp (strOfField (jLookup raw ("path_template".toList))) →
      (normalizeApiFactEvent raw).event = none) ∧
    (BearerDecomp (strOfField (jLookup raw ("request_id".toList))) →
      ((normalizeApiFactEvent raw).event.map (fun e => e.request_id)).getD [] = []) := by
  constructor
  · intro hd
    rcases hev : (normalizeApiFactEvent raw).event with _ | ev
    · rfl
    · exfalso
      obtain ⟨-, h2, h3, -⟩ := normalizeApiFactEvent_some hev
      rw [sanitizeApiFactFields,
        jLookup_pickAllowedFields raw API_EVENT_ALLOWED_FIELDS
          ("path_template".toList) (by simp [API_EVENT_ALLOWED_FIELDS])] at h3
      have hb : EmailDecomp ev.path_template := by
        rw [h3]
        exact EmailDecomp_jsToLower (EmailDecomp_jsTrim hd)
      have hc := EmailDecomp_sensitive hb
      rw [hc] at h2
      exact absurd h2 (by decide)
  · intro hd
    rcases hev : (normalizeApiFactEvent raw).event with _ | ev
    · rfl
    · obtain ⟨-, -, -, h4⟩ := normalizeApiFactEvent_some hev
      rcases h4 with hnil | ⟨heq, hsens⟩
      · simp only [Option.map_some', Option.getD_some]
        exact hnil
      · exfalso
        rw [sanitizeApiFactFields,
          jLookup_pickAllowedFields raw API_EVENT_ALLOWED_FIELDS
            ("request_id".toList) (by simp [API_EVENT_ALLOWED_FIELDS])] at heq
        have hb : BearerDecomp ev.request_id := by
          rw [heq]
          exact BearerDecomp_jsTrim hd
        have hc := BearerDecomp_sensitive hb
        rw [hc] at hsens
        exact absurd hsens (by decide)

theorem c6_sensitive_values_rejected_witness :
    (normalizeApiFactEvent
      [(("path_template".toList), JVal.jstr ("/u/a@bc.de".toList))]).event = none ∧
    ((normalizeApiFactEvent
      [(("request_id".toList), JVal.jstr ("bearer abcdefgh".toList))]).event.map
        (fun e => e.request_id)).getD [] = [] :=
  ⟨(c6_sensitive_values_rejected _).1
      ⟨("/u/".toList), ("a".toList), ("bc".toList), ("de".toList), [],
        by decide, by decide, by decide, by decide, by decide, by decide,
        by decide, by decide, by decide⟩,
    (c6_sensitive_values_rejected _).2
      ⟨[], ("bearer".toList), [' '], ("abcdefgh".toList), [],
        by decide, by decide, by decide, by decide, by decide, by decide,
        by decide⟩⟩

theorem mainTrace_lock_behavior_witness :
    ("/out".toList) ≠ ("--help".toList) ∧ ("/out".toList) ≠ ("-h".toList) ∧
    mainTrace (hookPipelineArgv ("/out".toList)) false = [ProbeAction.runPipeline] :=
  ⟨by decide, by decide,
    mainTrace_lock_behavior.2.2.1 ("/out".toList) (by decide) (by decide) false⟩

end ClawView
